import Mathlib

/-!
# Verification of the `exodus` Google Authenticator migration decoder

Shallow embedding of `src/main.rs` (a Yew application that decodes
`otpauth-migration://` QR codes and re-emits each OTP account as a canonical
`otpauth://` URI).

Modelling conventions:
* Rust strings and byte buffers are modelled as `List Nat` of byte values
  (Rust strings are UTF-8 byte sequences; all literals used here are ASCII).
* Fallible Rust code (`Result`) is modelled with `Except (List Nat)` where the
  error is the message byte string.
* External library calls (image container decoding, `rqrr` grid detection,
  `url::Url::parse`, the `fast_qr` SVG rendering) are modelled as explicit
  function parameters at the call boundary; well-specified encoder/decoder
  crates (`base32`, `base64`, `form_urlencoded`, `percent_encoding`) are
  embedded directly from their documented, standardised behaviour.
* The `proto` module (`mod proto;`) is declared in `main.rs` but its source is
  not part of the repository snapshot, so the protobuf message layer is
  modelled from the spec (see `MigrationPayload.decode`).
-/

/-- ASCII byte string of a Lean string literal (used for ASCII literals only). -/
def ascii (s : String) : List Nat := s.data.map Char.toNat

/-- The `Option` view of an `Except`, mirroring how Rust's `Result: IntoIterator`
behaves inside `Iterator::flat_map` (an `Err` contributes nothing). -/
def excToOption {ε α : Type} : Except ε α → Option α
  | Except.ok a => some a
  | Except.error _ => none

/-- The `enum OtpType` of the migration protobuf (`UNSPECIFIED | HOTP | TOTP`). -/
inductive OtpType
  | unspecified
  | hotp
  | totp
deriving DecidableEq, Repr

/-- The `enum OtpAlgorithm` of the migration protobuf. -/
inductive OtpAlgorithm
  | unspecified
  | sha1
  | sha256
  | sha512
  | md5
deriving DecidableEq, Repr

/-- The `enum OtpDigitCount` of the migration protobuf. -/
inductive OtpDigitCount
  | unspecified
  | six
  | eight
deriving DecidableEq, Repr

/-- Modelled from the spec: the `OtpParameters` account sub-message of the
migration payload (`proto.rs` is not in the source snapshot).  Fields
`secret`, `name`, `issuer`, `algorithm` enum, `digits` enum, `type` enum and
`counter`, as listed in spec section 6.  As in the Rust `prost` struct, the
enum fields hold the raw wire integers; the enum views are the getters
below. -/
structure OtpParameters where
  secret : List Nat
  name : List Nat
  issuer : List Nat
  algorithm : Nat
  digits : Nat
  type_ : Nat
  counter : Nat
deriving DecidableEq, Repr

/-- The prost getter `params.type_()`: unknown raw values fall back to
`UNSPECIFIED` (the enum default). -/
def typeOf (p : OtpParameters) : OtpType :=
  if p.type_ = 1 then OtpType.hotp
  else if p.type_ = 2 then OtpType.totp
  else OtpType.unspecified

/-- The prost getter `params.algorithm()`. -/
def algOf (p : OtpParameters) : OtpAlgorithm :=
  if p.algorithm = 1 then OtpAlgorithm.sha1
  else if p.algorithm = 2 then OtpAlgorithm.sha256
  else if p.algorithm = 3 then OtpAlgorithm.sha512
  else if p.algorithm = 4 then OtpAlgorithm.md5
  else OtpAlgorithm.unspecified

/-- The prost getter `params.digits()`. -/
def digitsOf (p : OtpParameters) : OtpDigitCount :=
  if p.digits = 1 then OtpDigitCount.six
  else if p.digits = 2 then OtpDigitCount.eight
  else OtpDigitCount.unspecified

/-- Modelled from the spec: the top-level `MigrationPayload` message with a
repeated `otp_parameters` field plus the batch metadata the core ignores. -/
structure MigrationPayload where
  otp_parameters : List OtpParameters
  version : Nat
  batch_size : Nat
  batch_index : Nat
deriving DecidableEq, Repr

/-- The `enum CopyState` (UI transient). -/
inductive CopyState
  | copied
  | failed
deriving DecidableEq, Repr

/-- The `struct Output` of `main.rs`.  The `svg` field (the `fast_qr` SVG data
URI) depends on the external QR encoder and is not claimed about, so it is
not modelled. -/
structure Output where
  issuer : List Nat
  name : List Nat
  secret : List Nat
  kind : List Nat
  algorithm : Option (List Nat)
  digit_count : Option (List Nat)
  url : List Nat
  show_svg : Bool
  copied : Option CopyState
deriving DecidableEq, Repr

/-- The `struct App`: pending reader keys, current output list, current error. -/
structure App where
  readers : List String
  output : List Output
  error : Option (List Nat)
deriving DecidableEq, Repr

/-! ## Byte-level text encoders

`percent_encoding::utf8_percent_encode(_, NON_ALPHANUMERIC)` escapes every
byte that is not ASCII alphanumeric; `form_urlencoded::Serializer` uses the
`application/x-www-form-urlencoded` profile (space to `+`; `*`, `-`, `.`, `_`
and alphanumerics kept; everything else `%XX` with uppercase hex). -/

/-- Is `b` an ASCII alphanumeric byte (`[A-Za-z0-9]`)? -/
def isAsciiAlnum (b : Nat) : Bool :=
  (48 ≤ b && b ≤ 57) || (65 ≤ b && b ≤ 90) || (97 ≤ b && b ≤ 122)

/-- Uppercase hex digit of a nibble value. -/
def hexDigitU (v : Nat) : Nat :=
  if v < 10 then 48 + v else 55 + v

/-- One byte under `percent_encoding::NON_ALPHANUMERIC`. -/
def pctEncodeByte (b : Nat) : List Nat :=
  if isAsciiAlnum b then [b] else [37, hexDigitU (b / 16), hexDigitU (b % 16)]

/-- Rust's `utf8_percent_encode(s, NON_ALPHANUMERIC)` over the UTF-8 bytes of `s`. -/
def pctEncode (l : List Nat) : List Nat :=
  (l.map pctEncodeByte).flatten

/-- Bytes left unescaped by the `application/x-www-form-urlencoded`
serializer: alphanumerics and `*ASTERISK`, `-`, `.`, `_`. -/
def isFormSafe (b : Nat) : Bool :=
  isAsciiAlnum b || b = 42 || b = 45 || b = 46 || b = 95

/-- One byte under the `form_urlencoded` byte serializer. -/
def formEncodeByte (b : Nat) : List Nat :=
  if b = 32 then [43]
  else if isFormSafe b then [b]
  else [37, hexDigitU (b / 16), hexDigitU (b % 16)]

/-- The `form_urlencoded` encoding of a whole byte string. -/
def formEncode (l : List Nat) : List Nat :=
  (l.map formEncodeByte).flatten

/-- Value of an ASCII hex digit byte. -/
def hexVal (b : Nat) : Option Nat :=
  if 48 ≤ b ∧ b ≤ 57 then some (b - 48)
  else if 65 ≤ b ∧ b ≤ 70 then some (b - 55)
  else if 97 ≤ b ∧ b ≤ 102 then some (b - 87)
  else none

/-- One step of lenient percent-decoding on a non-empty input: either a
valid `%XX` escape (three bytes) or one literal byte.  Returns the decoded
byte and the remaining input. -/
def pctStep : List Nat → Nat × List Nat
  | [] => (0, [])
  | b :: rest =>
    if b = 37 then
      match rest with
      | h1 :: h2 :: r2 =>
        match hexVal h1, hexVal h2 with
        | some v, some w => (16 * v + w, r2)
        | _, _ => (b, rest)
      | _ => (b, rest)
    else (b, rest)

/-- Fuel-driven lenient percent-decoding (invalid escapes kept literally);
the fuel is the input length, which always suffices. -/
def pctDecodeF : Nat → List Nat → List Nat
  | 0, _ => []
  | _, [] => []
  | f + 1, b :: rest =>
    (pctStep (b :: rest)).1 :: pctDecodeF f (pctStep (b :: rest)).2

/-- Lenient percent-decoding, used to state the round-trip properties of the
canonical URI's label. -/
def pctDecode (l : List Nat) : List Nat := pctDecodeF l.length l

/-- One step of lenient `application/x-www-form-urlencoded` decoding:
`+` becomes a space, otherwise as `pctStep`. -/
def formStep (l : List Nat) : Nat × List Nat :=
  match l with
  | b :: rest => if b = 43 then (32, rest) else pctStep l
  | [] => (0, [])

/-- Fuel-driven lenient `application/x-www-form-urlencoded` decoding
(`+` to space). -/
def formDecodeF : Nat → List Nat → List Nat
  | 0, _ => []
  | _, [] => []
  | f + 1, b :: rest =>
    (formStep (b :: rest)).1 :: formDecodeF f (formStep (b :: rest)).2

/-- Lenient `application/x-www-form-urlencoded` decoding of a query value. -/
def formDecode (l : List Nat) : List Nat := formDecodeF l.length l

/-! ## Bit-level helpers and RFC 4648 base32 -/

/-- The `k` low bits of `n`, most significant first. -/
def natToBits : Nat → Nat → List Bool
  | 0, _ => []
  | k + 1, n => natToBits k (n / 2) ++ [n % 2 == 1]

/-- Value of a most-significant-first bit list. -/
def bitsToNat (l : List Bool) : Nat :=
  l.foldl (fun a b => 2 * a + (if b then 1 else 0)) 0

/-- Fuel-driven chunking of a bit list into chunks of five (the fuel is the
list length, which always suffices). -/
def chunks5F : Nat → List Bool → List (List Bool)
  | 0, _ => []
  | _, [] => []
  | f + 1, a :: l => (a :: l.take 4) :: chunks5F f (l.drop 4)

/-- Split into chunks of five bits (last chunk possibly shorter). -/
def chunks5 (l : List Bool) : List (List Bool) := chunks5F l.length l

/-- Fuel-driven chunking into chunks of eight. -/
def chunks8F : Nat → List Bool → List (List Bool)
  | 0, _ => []
  | _, [] => []
  | f + 1, a :: l => (a :: l.take 7) :: chunks8F f (l.drop 7)

/-- Split into chunks of eight bits (last chunk possibly shorter). -/
def chunks8 (l : List Bool) : List (List Bool) := chunks8F l.length l

/-- The RFC 4648 base32 alphabet `A..Z 2..7`, as ASCII bytes. -/
def alphabet32 : List Nat :=
  ascii "ABCDEFGHIJKLMNOPQRSTUVWXYZ234567"

/-- Rust's `base32::encode(Alphabet::RFC4648 with padding false, secret)`: regroup
the bytes' bits into 5-bit groups (zero-padded to a multiple of five) and map
each group through the RFC 4648 alphabet, emitting no `=` padding. -/
def base32encode (s : List Nat) : List Nat :=
  let bits := (s.map (natToBits 8)).flatten
  let padded := bits ++ List.replicate ((5 - bits.length % 5) % 5) false
  (chunks5 padded).map (fun c => alphabet32.getD (bitsToNat c) 0)

/-- Index of a byte in the base32 alphabet (alphabet length if absent). -/
def idx32 (c : Nat) : Nat := alphabet32.indexOf c

/-- Lenient unpadded base32 decoding: 5 bits per character, regrouped into
bytes, trailing sub-byte bits dropped. -/
def base32decode (chars : List Nat) : List Nat :=
  (chunks8 ((chars.map (fun c => natToBits 5 (idx32 c))).flatten)).filterMap
    (fun c => if c.length = 8 then some (bitsToNat c) else none)

/-! ## Decimal rendering of the HOTP counter -/

/-- Decimal digits of `n` as ASCII bytes, least significant first
(fuel-driven; fuel `n` suffices). -/
def decRevF : Nat → Nat → List Nat
  | 0, _ => []
  | _ + 1, 0 => []
  | f + 1, n + 1 => ((n + 1) % 10 + 48) :: decRevF f ((n + 1) / 10)

/-- Rust's `counter.to_string()` as ASCII bytes. -/
def decimalBytes (n : Nat) : List Nat :=
  if n = 0 then [48] else (decRevF n n).reverse

/-- Parse a most-significant-first ASCII decimal digit string. -/
def parseDec (l : List Nat) : Nat :=
  l.foldl (fun a d => 10 * a + (d - 48)) 0

/-! ## Query-string serializer and parsers -/

/-- Join byte strings with a separator (`Vec::join` / the serializer's `&`). -/
def joinSep (sep : List Nat) : List (List Nat) → List Nat
  | [] => []
  | [x] => x
  | x :: xs => x ++ sep ++ joinSep sep xs

/-- Rust's `form_urlencoded::Serializer::finish` over the appended pairs:
`k1=v1&k2=v2&...` with both keys and values form-encoded. -/
def serializePairs (pairs : List (List Nat × List Nat)) : List Nat :=
  joinSep [38] (pairs.map (fun kv => formEncode kv.1 ++ [61] ++ formEncode kv.2))

/-- Split a byte string on every occurrence of `sep`. -/
def splitByte (sep : Nat) : List Nat → List (List Nat)
  | [] => [[]]
  | b :: rest =>
    if b = sep then [] :: splitByte sep rest
    else
      match splitByte sep rest with
      | [] => [[b]]
      | h :: t => (b :: h) :: t

/-- Split at the first occurrence of `sep` (whole string and `[]` if absent). -/
def splitFirst (sep : Nat) : List Nat → List Nat × List Nat
  | [] => ([], [])
  | b :: rest =>
    if b = sep then ([], rest)
    else
      let p := splitFirst sep rest
      (b :: p.1, p.2)

/-- Parse a query string back into decoded key/value pairs. -/
def parseQuery (q : List Nat) : List (List Nat × List Nat) :=
  (splitByte 38 q).map (fun part =>
    (formDecode (splitFirst 61 part).1, formDecode (splitFirst 61 part).2))

/-- Look a key up among parsed query pairs (first match). -/
def lookupQ (key : List Nat) (pairs : List (List Nat × List Nat)) : Option (List Nat) :=
  (pairs.find? (fun kv => kv.1 == key)).map Prod.snd

/-- Parse an `otpauth://{kind}/{label}?{querystring}` URI into its kind, its
(still percent-encoded) label, and its decoded query pairs. -/
def parseOtpauth (u : List Nat) : Option (List Nat × List Nat × List (List Nat × List Nat)) :=
  if u.take 10 = ascii "otpauth://" then
    let r := u.drop 10
    let kl := splitFirst 47 r
    let lq := splitFirst 63 kl.2
    some (kl.1, lq.1, parseQuery lq.2)
  else none

/-! ## `App::migration_to_output` (main.rs lines 355-434) -/

/-- ASCII uppercasing (`str::to_uppercase` on ASCII-only strings). -/
def upperBytes (l : List Nat) : List Nat :=
  l.map (fun b => if 97 ≤ b ∧ b ≤ 122 then b - 32 else b)

/-- The `let algorithm = match params.algorithm() { ... }` binding of
`migration_to_output`: the query value literal for the algorithm, `None`
for `UNSPECIFIED`. -/
def algLabel (p : OtpParameters) : Option (List Nat) :=
  match algOf p with
  | OtpAlgorithm.unspecified => none
  | OtpAlgorithm.sha1 => some (ascii "SHA1")
  | OtpAlgorithm.sha256 => some (ascii "SHA256")
  | OtpAlgorithm.sha512 => some (ascii "SHA512")
  | OtpAlgorithm.md5 => some (ascii "MD5")

/-- The `let digit_count = match params.digits() { ... }` binding of
`migration_to_output`. -/
def digLabel (p : OtpParameters) : Option (List Nat) :=
  match digitsOf p with
  | OtpDigitCount.unspecified => none
  | OtpDigitCount.six => some (ascii "6")
  | OtpDigitCount.eight => some (ascii "8")

/-- The pairs appended to the `form_urlencoded::Serializer` of
`migration_to_output`, in append order: `secret` first, then `counter` for
hotp records, then `issuer` when non-empty, then `algorithm` and `digits`
when their enums are specified. -/
def qpairs (params : OtpParameters) : List (List Nat × List Nat) :=
  let q0 : List (List Nat × List Nat) := [(ascii "secret", base32encode params.secret)]
  let q1 := if typeOf params = OtpType.hotp
    then q0 ++ [(ascii "counter", decimalBytes params.counter)] else q0
  let q2 := if params.issuer = [] then q1 else q1 ++ [(ascii "issuer", params.issuer)]
  let q3 := match algLabel params with
    | some a => q2 ++ [(ascii "algorithm", a)]
    | none => q2
  match digLabel params with
  | some d => q3 ++ [(ascii "digits", d)]
  | none => q3

/-- Rust's `App::migration_to_output`: re-encode the secret as unpadded RFC 4648
base32, determine the kind from the type enum (failing on `UNSPECIFIED`),
build the percent-encoded label and the form-encoded query string in append
order (see `qpairs`) and assemble the canonical URI. -/
def migration_to_output (params : OtpParameters) : Except (List Nat) Output :=
  match typeOf params with
  | OtpType.unspecified => Except.error (ascii "unknown otp type")
  | ty =>
    let secret := base32encode params.secret
    let kind := if ty = OtpType.hotp then ascii "hotp" else ascii "totp"
    let name := if params.issuer = []
      then pctEncode params.name
      else pctEncode (params.issuer ++ [58] ++ params.name)
    let querystring := serializePairs (qpairs params)
    let url := ascii "otpauth://" ++ kind ++ 47 :: name ++ 63 :: querystring
    Except.ok
      { issuer := params.issuer
        name := params.name
        secret := secret
        kind := upperBytes kind
        algorithm := algLabel params
        digit_count := digLabel params
        url := url
        show_svg := false
        copied := none }

deriving instance DecidableEq for Except

/-! ## Base64 (the `base64::decode` used on the `data` query parameter) -/

/-- Value of a standard-alphabet base64 character. -/
def b64val (c : Nat) : Option Nat :=
  if 65 ≤ c ∧ c ≤ 90 then some (c - 65)
  else if 97 ≤ c ∧ c ≤ 122 then some (c - 71)
  else if 48 ≤ c ∧ c ≤ 57 then some (c + 4)
  else if c = 43 then some 62
  else if c = 47 then some 63
  else none

/-- Decode a padding-stripped base64 character string into bytes. -/
def b64core : List Nat → Except (List Nat) (List Nat)
  | [] => Except.ok []
  | [_] => Except.error (ascii "invalid base64 length")
  | [a, b] =>
    match b64val a, b64val b with
    | some va, some vb => Except.ok [va * 4 + vb / 16]
    | _, _ => Except.error (ascii "invalid base64 character")
  | [a, b, c] =>
    match b64val a, b64val b, b64val c with
    | some va, some vb, some vc =>
      Except.ok [va * 4 + vb / 16, (vb % 16) * 16 + vc / 4]
    | _, _, _ => Except.error (ascii "invalid base64 character")
  | a :: b :: c :: d :: rest =>
    match b64val a, b64val b, b64val c, b64val d with
    | some va, some vb, some vc, some vd =>
      (b64core rest).map
        (fun tail => (va * 4 + vb / 16) :: ((vb % 16) * 16 + vc / 4) :: ((vc % 4) * 64 + vd) :: tail)
    | _, _, _, _ => Except.error (ascii "invalid base64 character")

/-- Rust's `base64::decode` with the standard alphabet: strip trailing `=` padding,
then decode in four-character groups. -/
def base64decode (s : List Nat) : Except (List Nat) (List Nat) :=
  b64core ((s.reverse.dropWhile (fun c => c == 61)).reverse)

/-! ## Protobuf wire decoding of the migration payload

Modelled from the spec: `proto.rs` is declared (`mod proto;`) but missing
from the source snapshot, so the `prost`-generated
`MigrationPayload::decode` is modelled from spec section 6: a
length-delimited, tag-based message encoding (varint-prefixed fields) with a
repeated account sub-message (fields: secret, name, issuer, algorithm enum,
digits enum, type enum, counter) and ignored batch metadata (version, batch
size, batch index).  Unknown fields are skipped; known fields with a wrong
wire type, truncated varints and short buffers are decode errors. -/

/-- Read one base-128 varint (low groups first, msb of each byte is the
continuation bit); returns the value and the remaining bytes. -/
def decodeVarintAux : List Nat → Nat → Nat → Except (List Nat) (Nat × List Nat)
  | [], _, _ => Except.error (ascii "truncated varint")
  | b :: rest, shift, acc =>
    if 70 ≤ shift then Except.error (ascii "varint overflow")
    else if b < 128 then Except.ok (acc + b * 2 ^ shift, rest)
    else decodeVarintAux rest (shift + 7) (acc + (b - 128) * 2 ^ shift)

/-- Read one varint from the front of a buffer. -/
def decodeVarint (l : List Nat) : Except (List Nat) (Nat × List Nat) :=
  decodeVarintAux l 0 0

/-- All-default `OtpParameters` (prost message default). -/
def defaultOtp : OtpParameters :=
  { secret := [], name := [], issuer := [], algorithm := 0, digits := 0,
    type_ := 0, counter := 0 }

/-- Field loop of the `OtpParameters` sub-message decoder (fuel-driven; the
fuel is the buffer length plus one, which always suffices since every field
consumes at least one byte). -/
def decodeOtpFields : Nat → List Nat → OtpParameters → Except (List Nat) OtpParameters
  | _, [], acc => Except.ok acc
  | 0, _ :: _, _ => Except.error (ascii "fuel exhausted")
  | fuel + 1, l, acc =>
    match decodeVarint l with
    | Except.error e => Except.error e
    | Except.ok (tag, r1) =>
      let field := tag / 8
      match tag % 8 with
      | 0 =>
        if field = 1 ∨ field = 2 ∨ field = 3 then
          Except.error (ascii "invalid wire type")
        else
        match decodeVarint r1 with
        | Except.error e => Except.error e
        | Except.ok (v, r2) =>
          if field = 4 then decodeOtpFields fuel r2 { acc with algorithm := v }
          else if field = 5 then decodeOtpFields fuel r2 { acc with digits := v }
          else if field = 6 then decodeOtpFields fuel r2 { acc with type_ := v }
          else if field = 7 then decodeOtpFields fuel r2 { acc with counter := v }
          else decodeOtpFields fuel r2 acc
      | 2 =>
        match decodeVarint r1 with
        | Except.error e => Except.error e
        | Except.ok (len, r2) =>
          if r2.length < len then Except.error (ascii "buffer underflow")
          else
            let content := r2.take len
            let rest := r2.drop len
            if field = 1 then decodeOtpFields fuel rest { acc with secret := content }
            else if field = 2 then decodeOtpFields fuel rest { acc with name := content }
            else if field = 3 then decodeOtpFields fuel rest { acc with issuer := content }
            else if field = 4 ∨ field = 5 ∨ field = 6 ∨ field = 7 then
              Except.error (ascii "invalid wire type")
            else decodeOtpFields fuel rest acc
      | 1 =>
        if field ≤ 7 then Except.error (ascii "invalid wire type")
        else if r1.length < 8 then Except.error (ascii "buffer underflow")
        else decodeOtpFields fuel (r1.drop 8) acc
      | 5 =>
        if field ≤ 7 then Except.error (ascii "invalid wire type")
        else if r1.length < 4 then Except.error (ascii "buffer underflow")
        else decodeOtpFields fuel (r1.drop 4) acc
      | _ => Except.error (ascii "invalid wire type")

/-- Decode one `OtpParameters` sub-message. -/
def decodeOtp (l : List Nat) : Except (List Nat) OtpParameters :=
  decodeOtpFields (l.length + 1) l defaultOtp

/-- All-default `MigrationPayload`. -/
def defaultMigration : MigrationPayload :=
  { otp_parameters := [], version := 0, batch_size := 0, batch_index := 0 }

/-- Field loop of the `MigrationPayload` decoder: field 1 is the repeated
`otp_parameters` sub-message, fields 2-4 are varint batch metadata. -/
def decodeMigFields : Nat → List Nat → MigrationPayload → Except (List Nat) MigrationPayload
  | _, [], acc => Except.ok acc
  | 0, _ :: _, _ => Except.error (ascii "fuel exhausted")
  | fuel + 1, l, acc =>
    match decodeVarint l with
    | Except.error e => Except.error e
    | Except.ok (tag, r1) =>
      let field := tag / 8
      match tag % 8 with
      | 0 =>
        if field = 1 then Except.error (ascii "invalid wire type")
        else
        match decodeVarint r1 with
        | Except.error e => Except.error e
        | Except.ok (v, r2) =>
          if field = 2 then decodeMigFields fuel r2 { acc with version := v }
          else if field = 3 then decodeMigFields fuel r2 { acc with batch_size := v }
          else if field = 4 then decodeMigFields fuel r2 { acc with batch_index := v }
          else decodeMigFields fuel r2 acc
      | 2 =>
        match decodeVarint r1 with
        | Except.error e => Except.error e
        | Except.ok (len, r2) =>
          if r2.length < len then Except.error (ascii "buffer underflow")
          else
            let content := r2.take len
            let rest := r2.drop len
            if field = 1 then
              match decodeOtp content with
              | Except.error e => Except.error e
              | Except.ok params =>
                decodeMigFields fuel rest
                  { acc with otp_parameters := acc.otp_parameters ++ [params] }
            else if field = 2 ∨ field = 3 ∨ field = 4 then
              Except.error (ascii "invalid wire type")
            else decodeMigFields fuel rest acc
      | 1 =>
        if field ≤ 4 then Except.error (ascii "invalid wire type")
        else if r1.length < 8 then Except.error (ascii "buffer underflow")
        else decodeMigFields fuel (r1.drop 8) acc
      | 5 =>
        if field ≤ 4 then Except.error (ascii "invalid wire type")
        else if r1.length < 4 then Except.error (ascii "buffer underflow")
        else decodeMigFields fuel (r1.drop 4) acc
      | _ => Except.error (ascii "invalid wire type")

/-- Rust's `MigrationPayload::decode` over a raw byte buffer. -/
def MigrationPayload.decode (l : List Nat) : Except (List Nat) MigrationPayload :=
  decodeMigFields (l.length + 1) l defaultMigration

/-! ## `App::migration_from_file` and the `extract` pipeline
(main.rs lines 299-353) -/

/-- A parsed URL as observed by `extract`: its scheme and its decoded query
pairs (`url::Url::query_pairs` yields percent-decoded pairs). -/
structure Url where
  scheme : List Nat
  query_pairs : List (List Nat × List Nat)
deriving DecidableEq, Repr

/-- The body of the second `flat_map` of `extract`: find the `data` query
parameter, base64-decode it, and parse the migration payload; any failure is
an `Err` that the surrounding `flat_map` silently drops. -/
def dataPipeline (url : Url) : Except (List Nat) MigrationPayload :=
  match url.query_pairs.find? (fun kv => kv.1 == ascii "data") with
  | none => Except.error (ascii "could not find data param in url")
  | some kv =>
    match base64decode kv.2 with
    | Except.error e => Except.error e
    | Except.ok message => MigrationPayload.decode message

/-- The iterator chain of `extract` after grid detection: per-grid decode
and URL-parse failures are dropped (`flat_map` over `Result`), only
`otpauth-migration` schemes are kept, per-URL payload failures are dropped
(second `flat_map` over `Result`), and `.next()` takes the first success. -/
def migrationSearch (parsed : List (Except (List Nat) Url)) : Option MigrationPayload :=
  (((parsed.filterMap excToOption).filter
      (fun u => u.scheme == ascii "otpauth-migration")).filterMap
    (fun u => excToOption (dataPipeline u))).head?

/-- The binarization loop of `extract`: every luma sample strictly above 128
becomes 255, everything else (128 included) becomes 0. -/
def thresholdImage (img : List Nat) : List Nat :=
  img.map (fun pixel => if 128 < pixel then 255 else 0)

/-- One pass of `extract(buffer, threshold)`.  The external collaborators are
passed as functions: `img` is the result of `image::load_from_memory(..)
.to_luma8()` on the buffer, and `detect` stands for `rqrr` grid
detection/decoding composed with `url::Url::parse` (both failure kinds are
dropped by the same `flat_map`, so they are merged into one `Except`). -/
def extract (img : Except (List Nat) (List Nat))
    (detect : List Nat → List (Except (List Nat) Url)) (threshold : Bool) :
    Except (List Nat) (Option MigrationPayload) :=
  match img with
  | Except.error e => Except.error e
  | Except.ok image =>
    let image := if threshold then thresholdImage image else image
    Except.ok (migrationSearch (detect image))

/-- Rust's `App::migration_from_file`: run `extract` without thresholding; only if
that succeeds with an empty result, retry once with thresholding. -/
def migration_from_file (img : Except (List Nat) (List Nat))
    (detect : List Nat → List (Except (List Nat) Url)) :
    Except (List Nat) (Option MigrationPayload) :=
  match extract img detect false with
  | Except.error e => Except.error e
  | Except.ok migration =>
    if migration.isSome then Except.ok migration
    else extract img detect true

/-! ## `App::update` (main.rs lines 63-150) -/

/-- The record loop of the `Msg::Loaded` arm: convert each record, pushing
successes (in order) and collecting per-record error strings. -/
def loadedFold : List OtpParameters → List Output × List (List Nat)
  | [] => ([], [])
  | p :: rest =>
    let acc := loadedFold rest
    match migration_to_output p with
    | Except.ok o => (o :: acc.1, acc.2)
    | Except.error e => (acc.1, e :: acc.2)

/-- The error aggregation of the `Msg::Loaded` arm over the collected
per-record error strings. -/
def aggregateErrors (errors : List (List Nat)) : Option (List Nat) :=
  match errors with
  | [] => none
  | [e] => some (ascii "One account could not be read: " ++ e)
  | es =>
    some (decimalBytes es.length ++ ascii " accounts could not be read: "
      ++ joinSep (ascii ", ") es)

/-- The user-facing message of the `Ok(None)` (no payload found) outcome. -/
def noQrMessage : List Nat :=
  ascii "No valid Google Authenticator Export QR code found in the uploaded image."

/-- The `Msg::Loaded(file_name, buffer)` arm of `App::update`, with
`decodeResult` standing for `Self::migration_from_file(buffer)`.  A message
for an unknown reader is ignored; a decoded payload appends its outputs and
aggregates per-record errors; an empty or failed decode replaces the output
list with the empty list and sets the error message. -/
def update_loaded (app : App) (file_name : String)
    (decodeResult : Except (List Nat) (Option MigrationPayload)) : App :=
  if file_name ∈ app.readers then
    let app := { app with readers := app.readers.erase file_name }
    match decodeResult with
    | Except.ok (some migration) =>
      let acc := loadedFold migration.otp_parameters
      { app with output := app.output ++ acc.1, error := aggregateErrors acc.2 }
    | Except.ok none =>
      { app with output := [], error := some noQrMessage }
    | Except.error err =>
      { app with output := [], error := some (ascii "Unknown error: " ++ err) }
  else app

/-- The `Msg::Files(files)` arm of `App::update`: clear the pending readers
and the output, then register one reader per file name. -/
def update_files (app : App) (names : List String) : App :=
  { readers := names, output := [], error := app.error }

/-- Recover the algorithm enum from an optional `algorithm` query value
(absence means `UNSPECIFIED`). -/
def parseAlgParam : Option (List Nat) → Option OtpAlgorithm
  | none => some OtpAlgorithm.unspecified
  | some v =>
    if v = ascii "SHA1" then some OtpAlgorithm.sha1
    else if v = ascii "SHA256" then some OtpAlgorithm.sha256
    else if v = ascii "SHA512" then some OtpAlgorithm.sha512
    else if v = ascii "MD5" then some OtpAlgorithm.md5
    else none

/-- Recover the digit-count enum from an optional `digits` query value
(absence means `UNSPECIFIED`). -/
def parseDigParam : Option (List Nat) → Option OtpDigitCount
  | none => some OtpDigitCount.unspecified
  | some v =>
    if v = ascii "6" then some OtpDigitCount.six
    else if v = ascii "8" then some OtpDigitCount.eight
    else none

/-! ## Concrete sample values used by witnesses and counterexamples -/

/-- A TOTP record whose secret is the spec's base32 example bytes. -/
def sampleTotpRec : OtpParameters :=
  { secret := [222, 173, 190, 239], name := ascii "x", issuer := [],
    algorithm := 0, digits := 0, type_ := 2, counter := 0 }

/-- A TOTP record with an issuer containing a space, `*` and `-`. -/
def sampleIssuerRec : OtpParameters :=
  { secret := [1, 2], name := ascii "n", issuer := ascii "a b*c-d",
    algorithm := 0, digits := 0, type_ := 2, counter := 0 }

/-- An HOTP record with issuer, algorithm, digits and a counter. -/
def sampleHotpRec : OtpParameters :=
  { secret := [1, 2], name := ascii "n", issuer := ascii "ex",
    algorithm := 1, digits := 1, type_ := 1, counter := 42 }

/-- A record with `otpType = UNSPECIFIED`. -/
def badTypeRec : OtpParameters :=
  { secret := [1], name := ascii "bad", issuer := [],
    algorithm := 0, digits := 0, type_ := 0, counter := 0 }

/-- A default output used only as the impossible fallback of `okOutput`. -/
def fallbackOutput : Output :=
  { issuer := [], name := [], secret := [], kind := [], algorithm := none,
    digit_count := none, url := [], show_svg := false, copied := none }

/-- Extract the `Ok` payload of a conversion (fallback never used in this
development). -/
def okOutput (r : Except (List Nat) Output) : Output :=
  match r with
  | Except.ok o => o
  | Except.error _ => fallbackOutput

/-- The concrete output of `sampleTotpRec`. -/
def sampleTotpOut : Output := okOutput (migration_to_output sampleTotpRec)

/-- The concrete output of `sampleIssuerRec`. -/
def sampleIssuerOut : Output := okOutput (migration_to_output sampleIssuerRec)

/-- The concrete output of `sampleHotpRec`. -/
def sampleHotpOut : Output := okOutput (migration_to_output sampleHotpRec)

/-- A migration URL whose `data` parameter is `CA==`, i.e. the single byte
`0x08`: a truncated protobuf message (field 1 with varint wire type), which
fails to decode. -/
def urlBadPayload : Url :=
  { scheme := ascii "otpauth-migration", query_pairs := [(ascii "data", ascii "CA==")] }

/-- A migration URL whose `data` parameter is `CgIwAg==`, i.e. the bytes
`0A 02 30 02`: one `OtpParameters` sub-message with `type = TOTP`. -/
def urlGoodPayload : Url :=
  { scheme := ascii "otpauth-migration", query_pairs := [(ascii "data", ascii "CgIwAg==")] }

/-- The single account record carried by `urlGoodPayload`. -/
def goodPayloadRec : OtpParameters :=
  { secret := [], name := [], issuer := [], algorithm := 0, digits := 0,
    type_ := 2, counter := 0 }

/-- The payload decoded from `urlGoodPayload`. -/
def goodPayload : MigrationPayload :=
  { otp_parameters := [goodPayloadRec], version := 0, batch_size := 0, batch_index := 0 }

/-- A grid-detection stub: the raw sample image `[10]` yields nothing, its
thresholded form `[0]` yields one migration URL. -/
def detectSample : List Nat → List (Except (List Nat) Url) :=
  fun img => if img = [0] then [Except.ok urlGoodPayload] else []

/-- A payload whose single record converts successfully. -/
def goodBatch : MigrationPayload :=
  { otp_parameters := [sampleTotpRec], version := 0, batch_size := 0, batch_index := 0 }

/-- A payload with exactly one failing record. -/
def oneBadBatch : MigrationPayload :=
  { otp_parameters := [sampleTotpRec, badTypeRec], version := 0, batch_size := 0,
    batch_index := 0 }

/-- A payload with two failing records around a good one. -/
def twoBadBatch : MigrationPayload :=
  { otp_parameters := [badTypeRec, sampleTotpRec, badTypeRec], version := 0,
    batch_size := 0, batch_index := 0 }

/-- An app state with one pending reader, one previous output and an error. -/
def appWitness : App :=
  { readers := ["a"], output := [sampleTotpOut], error := some (ascii "old") }

/-! ## Properties of the byte-level decoders -/

theorem pctDecodeF_nil (f : Nat) : pctDecodeF f [] = [] := by
  cases f <;> rfl

theorem formDecodeF_nil (f : Nat) : formDecodeF f [] = [] := by
  cases f <;> rfl

/-- One decode step never consumes less than one byte. -/
theorem pctStep_suffix (b : Nat) (rest : List Nat) :
    (pctStep (b :: rest)).2.length ≤ rest.length := by
  by_cases hb : b = 37
  · subst hb
    match rest with
    | [] => simp [pctStep]
    | [h1] => simp [pctStep]
    | h1 :: h2 :: r2 =>
      simp only [pctStep, if_pos rfl]
      cases hexVal h1 <;> cases hexVal h2 <;> simp <;> omega
  · simp [pctStep, hb]

/-- One form-decode step never consumes less than one byte. -/
theorem formStep_suffix (b : Nat) (rest : List Nat) :
    (formStep (b :: rest)).2.length ≤ rest.length := by
  by_cases hb : b = 43
  · simp [formStep, hb]
  · simpa [formStep, hb] using pctStep_suffix b rest

/-- Any fuel at least the input length computes `pctDecode`. -/
theorem pctDecodeF_fuel (f : Nat) :
    ∀ l : List Nat, l.length ≤ f → pctDecodeF f l = pctDecode l := by
  induction f using Nat.strong_induction_on with
  | _ f IH =>
    intro l hl
    cases l with
    | nil => rw [pctDecodeF_nil, pctDecode, pctDecodeF_nil]
    | cons b rest =>
      cases f with
      | zero => simp at hl
      | succ f =>
        have hrest : rest.length ≤ f := by simpa using hl
        have hstep := pctStep_suffix b rest
        show pctDecodeF (f + 1) (b :: rest) = pctDecodeF (rest.length + 1) (b :: rest)
        simp only [pctDecodeF]
        rw [IH f (by omega) _ (by omega), IH rest.length (by omega) _ (by omega)]

/-- Any fuel at least the input length computes `formDecode`. -/
theorem formDecodeF_fuel (f : Nat) :
    ∀ l : List Nat, l.length ≤ f → formDecodeF f l = formDecode l := by
  induction f using Nat.strong_induction_on with
  | _ f IH =>
    intro l hl
    cases l with
    | nil => rw [formDecodeF_nil, formDecode, formDecodeF_nil]
    | cons b rest =>
      cases f with
      | zero => simp at hl
      | succ f =>
        have hrest : rest.length ≤ f := by simpa using hl
        have hstep := formStep_suffix b rest
        show formDecodeF (f + 1) (b :: rest) = formDecodeF (rest.length + 1) (b :: rest)
        simp only [formDecodeF]
        rw [IH f (by omega) _ (by omega), IH rest.length (by omega) _ (by omega)]

/-- Unfolding `pctDecode` one step at a time. -/
theorem pctDecode_cons (b : Nat) (rest : List Nat) :
    pctDecode (b :: rest) =
      (pctStep (b :: rest)).1 :: pctDecode (pctStep (b :: rest)).2 := by
  show pctDecodeF (rest.length + 1) (b :: rest) = _
  simp only [pctDecodeF]
  rw [pctDecodeF_fuel rest.length _ (pctStep_suffix b rest)]

/-- Unfolding `formDecode` one step at a time. -/
theorem formDecode_cons (b : Nat) (rest : List Nat) :
    formDecode (b :: rest) =
      (formStep (b :: rest)).1 :: formDecode (formStep (b :: rest)).2 := by
  show formDecodeF (rest.length + 1) (b :: rest) = _
  simp only [formDecodeF]
  rw [formDecodeF_fuel rest.length _ (formStep_suffix b rest)]

/-- Literal bytes other than `%` decode to themselves. -/
theorem pctStep_safe (b : Nat) (hb : b ≠ 37) (t : List Nat) :
    pctStep (b :: t) = (b, t) := by
  simp [pctStep, hb]

/-- A valid `%XX` escape decodes to its byte value. -/
theorem pctStep_escape (d1 d2 v w : Nat) (h1 : hexVal d1 = some v)
    (h2 : hexVal d2 = some w) (t : List Nat) :
    pctStep (37 :: d1 :: d2 :: t) = (16 * v + w, t) := by
  simp [pctStep, h1, h2]

/-- A `+` form-decodes to a space. -/
theorem formStep_plus (t : List Nat) : formStep (43 :: t) = (32, t) := by
  simp [formStep]

/-- Literal bytes other than `+` and `%` form-decode to themselves. -/
theorem formStep_safe (b : Nat) (hb43 : b ≠ 43) (hb37 : b ≠ 37) (t : List Nat) :
    formStep (b :: t) = (b, t) := by
  simp [formStep, hb43, pctStep_safe b hb37]

/-- A valid `%XX` escape form-decodes to its byte value. -/
theorem formStep_escape (d1 d2 v w : Nat) (h1 : hexVal d1 = some v)
    (h2 : hexVal d2 = some w) (t : List Nat) :
    formStep (37 :: d1 :: d2 :: t) = (16 * v + w, t) := by
  simp [formStep, pctStep_escape d1 d2 v w h1 h2]

/-- The uppercase hex digit of a nibble evaluates back to the nibble. -/
theorem hexVal_hexDigitU : ∀ v : Nat, v < 16 → hexVal (hexDigitU v) = some v := by
  decide

set_option maxRecDepth 4096 in
/-- Alphanumeric bytes are not `%` or `+` or separators. -/
theorem alnum_byte_facts :
    ∀ b : Nat, b < 256 → isAsciiAlnum b = true → b ≠ 37 ∧ b ≠ 43 := by
  decide

set_option maxRecDepth 4096 in
/-- Form-safe bytes are not `%` or `+`. -/
theorem formSafe_byte_facts :
    ∀ b : Nat, b < 256 → isFormSafe b = true → b ≠ 37 ∧ b ≠ 43 := by
  decide

/-- Percent-decoding inverts `NON_ALPHANUMERIC` percent-encoding, one
byte at a time. -/
theorem pctDecode_encodeByte (b : Nat) (hb : b < 256) (t : List Nat) :
    pctDecode (pctEncodeByte b ++ t) = b :: pctDecode t := by
  by_cases ha : isAsciiAlnum b
  · have h37 : b ≠ 37 := (alnum_byte_facts b hb ha).1
    rw [show pctEncodeByte b ++ t = b :: t by simp [pctEncodeByte, ha]]
    rw [pctDecode_cons, pctStep_safe b h37]
  · rw [show pctEncodeByte b ++ t = 37 :: hexDigitU (b / 16) :: hexDigitU (b % 16) :: t by
      simp [pctEncodeByte, ha]]
    rw [pctDecode_cons,
      pctStep_escape _ _ (b / 16) (b % 16)
        (hexVal_hexDigitU _ (by omega)) (hexVal_hexDigitU _ (by omega))]
    have : 16 * (b / 16) + b % 16 = b := by omega
    rw [this]

/-- Form-decoding inverts form-encoding, one byte at a time. -/
theorem formDecode_encodeByte (b : Nat) (hb : b < 256) (t : List Nat) :
    formDecode (formEncodeByte b ++ t) = b :: formDecode t := by
  by_cases h32 : b = 32
  · subst h32
    rw [show formEncodeByte 32 ++ t = 43 :: t by simp [formEncodeByte]]
    rw [formDecode_cons, formStep_plus]
  · by_cases hs : isFormSafe b
    · have hfacts := formSafe_byte_facts b hb hs
      rw [show formEncodeByte b ++ t = b :: t by simp [formEncodeByte, h32, hs]]
      rw [formDecode_cons, formStep_safe b hfacts.2 hfacts.1]
    · rw [show formEncodeByte b ++ t = 37 :: hexDigitU (b / 16) :: hexDigitU (b % 16) :: t by
        simp [formEncodeByte, h32, hs]]
      rw [formDecode_cons,
        formStep_escape _ _ (b / 16) (b % 16)
          (hexVal_hexDigitU _ (by omega)) (hexVal_hexDigitU _ (by omega))]
      have : 16 * (b / 16) + b % 16 = b := by omega
      rw [this]

/-- Percent-decoding inverts `pctEncode` on byte strings. -/
theorem pctDecode_pctEncode (l : List Nat) (h : ∀ b ∈ l, b < 256) :
    pctDecode (pctEncode l) = l := by
  induction l with
  | nil => rfl
  | cons b t ih =>
    have hb : b < 256 := h b (by simp)
    have ht : ∀ x ∈ t, x < 256 := fun x hx => h x (by simp [hx])
    rw [show pctEncode (b :: t) = pctEncodeByte b ++ pctEncode t by simp [pctEncode]]
    rw [pctDecode_encodeByte b hb, ih ht]

/-- Form-decoding inverts `formEncode` on byte strings. -/
theorem formDecode_formEncode (l : List Nat) (h : ∀ b ∈ l, b < 256) :
    formDecode (formEncode l) = l := by
  induction l with
  | nil => rfl
  | cons b t ih =>
    have hb : b < 256 := h b (by simp)
    have ht : ∀ x ∈ t, x < 256 := fun x hx => h x (by simp [hx])
    rw [show formEncode (b :: t) = formEncodeByte b ++ formEncode t by simp [formEncode]]
    rw [formDecode_encodeByte b hb, ih ht]

/-! ## Splitting and query-string round trips -/

theorem take_len_append {α : Type} (a b : List α) : (a ++ b).take a.length = a := by
  induction a with
  | nil => rfl
  | cons x t ih => simp [ih]

theorem drop_len_append {α : Type} (a b : List α) : (a ++ b).drop a.length = b := by
  induction a with
  | nil => rfl
  | cons x t ih => simp [ih]

/-- The function `splitFirst` recovers the two halves around the first separator. -/
theorem splitFirst_append (sep : Nat) (a b : List Nat) (h : sep ∉ a) :
    splitFirst sep (a ++ sep :: b) = (a, b) := by
  induction a with
  | nil => simp [splitFirst]
  | cons x t ih =>
    have hx : ¬ x = sep := by rintro rfl; exact h (List.mem_cons_self x t)
    have ht : sep ∉ t := fun hm => h (List.mem_cons_of_mem x hm)
    simp [splitFirst, hx, ih ht]

/-- A separator-free string splits into itself alone. -/
theorem splitByte_no_sep (sep : Nat) (x : List Nat) (h : sep ∉ x) :
    splitByte sep x = [x] := by
  induction x with
  | nil => rfl
  | cons b t ih =>
    have hb : ¬ b = sep := by rintro rfl; exact h (List.mem_cons_self b t)
    have ht : sep ∉ t := fun hm => h (List.mem_cons_of_mem b hm)
    simp [splitByte, hb, ih ht]

/-- Splitting after a separator-free prefix peels that prefix off. -/
theorem splitByte_append (sep : Nat) (x tail : List Nat) (h : sep ∉ x) :
    splitByte sep (x ++ sep :: tail) = x :: splitByte sep tail := by
  induction x with
  | nil => simp [splitByte]
  | cons b t ih =>
    have hb : ¬ b = sep := by rintro rfl; exact h (List.mem_cons_self b t)
    have ht : sep ∉ t := fun hm => h (List.mem_cons_of_mem b hm)
    simp [splitByte, hb, ih ht]

/-- The function `splitByte` inverts `joinSep` on separator-free parts. -/
theorem splitByte_joinSep (sep : Nat) (parts : List (List Nat))
    (hne : parts ≠ []) (h : ∀ p ∈ parts, sep ∉ p) :
    splitByte sep (joinSep [sep] parts) = parts := by
  induction parts with
  | nil => cases hne rfl
  | cons x rest ih =>
    cases rest with
    | nil => exact splitByte_no_sep sep x (h x (by simp))
    | cons y rest2 =>
      rw [show joinSep [sep] (x :: y :: rest2) = x ++ sep :: joinSep [sep] (y :: rest2) by
        simp [joinSep]]
      rw [splitByte_append sep x _ (h x (by simp))]
      rw [ih (by simp) (fun p hp => h p (by simp [hp]))]

set_option maxRecDepth 4096 in
/-- Form-encoded bytes never contain the separators `&` or `=`. -/
theorem formEncodeByte_no_sep :
    ∀ b : Nat, b < 256 → ¬ 38 ∈ formEncodeByte b ∧ ¬ 61 ∈ formEncodeByte b := by
  decide

set_option maxRecDepth 4096 in
/-- Percent-encoded bytes never contain `/` or `?`. -/
theorem pctEncodeByte_no_delim :
    ∀ b : Nat, b < 256 → ¬ 47 ∈ pctEncodeByte b ∧ ¬ 63 ∈ pctEncodeByte b := by
  decide

/-- Lift a per-byte exclusion through `formEncode`. -/
theorem not_mem_formEncode (c : Nat) (hc : ∀ b : Nat, b < 256 → c ∉ formEncodeByte b)
    (l : List Nat) (hl : ∀ b ∈ l, b < 256) : c ∉ formEncode l := by
  intro hmem
  rw [formEncode, List.mem_flatten] at hmem
  rcases hmem with ⟨bl, hbl, hcbl⟩
  rcases List.mem_map.mp hbl with ⟨b, hb, rfl⟩
  exact hc b (hl b hb) hcbl

/-- Lift a per-byte exclusion through `pctEncode`. -/
theorem not_mem_pctEncode (c : Nat) (hc : ∀ b : Nat, b < 256 → c ∉ pctEncodeByte b)
    (l : List Nat) (hl : ∀ b ∈ l, b < 256) : c ∉ pctEncode l := by
  intro hmem
  rw [pctEncode, List.mem_flatten] at hmem
  rcases hmem with ⟨bl, hbl, hcbl⟩
  rcases List.mem_map.mp hbl with ⟨b, hb, rfl⟩
  exact hc b (hl b hb) hcbl

theorem map_id_of_mem {α : Type} (l : List α) (f : α → α) (h : ∀ a ∈ l, f a = a) :
    l.map f = l := by
  induction l with
  | nil => rfl
  | cons x t ih => simp [h x (by simp), ih (fun a ha => h a (by simp [ha]))]

/-- Parsing a serialized query string recovers every appended pair. -/
theorem parseQuery_serializePairs (pairs : List (List Nat × List Nat)) (hne : pairs ≠ [])
    (h : ∀ kv ∈ pairs, (∀ b ∈ kv.1, b < 256) ∧ (∀ b ∈ kv.2, b < 256)) :
    parseQuery (serializePairs pairs) = pairs := by
  unfold parseQuery serializePairs
  rw [splitByte_joinSep 38 _ (by simpa using hne) ?parts]
  case parts =>
    intro part hpart
    rcases List.mem_map.mp hpart with ⟨kv, hkv, rfl⟩
    intro hmem
    rcases List.mem_append.mp hmem with h12 | h3
    · rcases List.mem_append.mp h12 with h1 | h2
      · exact not_mem_formEncode 38 (fun b hb => (formEncodeByte_no_sep b hb).1)
          kv.1 (h kv hkv).1 h1
      · simp at h2
    · exact not_mem_formEncode 38 (fun b hb => (formEncodeByte_no_sep b hb).1)
        kv.2 (h kv hkv).2 h3
  rw [List.map_map]
  refine map_id_of_mem pairs _ (fun kv hkv => ?_)
  have hk := (h kv hkv).1
  have hv := (h kv hkv).2
  simp only [Function.comp]
  rw [show formEncode kv.1 ++ [61] ++ formEncode kv.2
      = formEncode kv.1 ++ 61 :: formEncode kv.2 by simp]
  rw [splitFirst_append 61 _ _
    (not_mem_formEncode 61 (fun b hb => (formEncodeByte_no_sep b hb).2) kv.1 hk)]
  simp [formDecode_formEncode _ hk, formDecode_formEncode _ hv]

/-- Parsing a URI assembled as `otpauth://{kind}/{label}?{query}` recovers
the three components. -/
theorem parseOtpauth_build (kind label q : List Nat) (hk : 47 ∉ kind) (hl : 63 ∉ label) :
    parseOtpauth (ascii "otpauth://" ++ kind ++ 47 :: label ++ 63 :: q) =
      some (kind, label, parseQuery q) := by
  unfold parseOtpauth
  have hlen : (10 : Nat) = (ascii "otpauth://").length := by rfl
  rw [show ascii "otpauth://" ++ kind ++ 47 :: label ++ 63 :: q
      = ascii "otpauth://" ++ (kind ++ 47 :: (label ++ 63 :: q)) by simp]
  rw [hlen, take_len_append, if_pos rfl, drop_len_append]
  simp only [splitFirst_append 47 kind (label ++ 63 :: q) hk,
    splitFirst_append 63 label q hl]

/-! ## Decimal counter round trip -/

theorem parseDec_append (l : List Nat) (d : Nat) :
    parseDec (l ++ [d]) = 10 * parseDec l + (d - 48) := by
  simp [parseDec, List.foldl_append]

/-- Digits produced by `decRevF` are ASCII decimal digits. -/
theorem decRevF_digits : ∀ f n : Nat, ∀ d ∈ decRevF f n, 48 ≤ d ∧ d ≤ 57 := by
  intro f
  induction f with
  | zero => intro n d hd; simp [decRevF] at hd
  | succ f ih =>
    intro n d hd
    cases n with
    | zero => simp [decRevF] at hd
    | succ m =>
      rw [show decRevF (f + 1) (m + 1) = ((m + 1) % 10 + 48) :: decRevF f ((m + 1) / 10)
        from rfl] at hd
      rcases List.mem_cons.mp hd with rfl | hd2
      · have := Nat.mod_lt (m + 1) (show 0 < 10 by omega)
        omega
      · exact ih _ d hd2

/-- Parsing the decimal rendering of any value with enough fuel recovers it. -/
theorem parseDec_decRevF : ∀ f n : Nat, n ≤ f → parseDec ((decRevF f n).reverse) = n := by
  intro f
  induction f with
  | zero =>
    intro n hn
    have : n = 0 := by omega
    subst this
    rfl
  | succ f ih =>
    intro n hn
    cases n with
    | zero => rfl
    | succ m =>
      rw [show decRevF (f + 1) (m + 1) = ((m + 1) % 10 + 48) :: decRevF f ((m + 1) / 10)
        from rfl]
      rw [List.reverse_cons, parseDec_append]
      have hdiv : (m + 1) / 10 < m + 1 := Nat.div_lt_self (Nat.succ_pos m) (by omega)
      rw [ih ((m + 1) / 10) (by omega)]
      omega

/-- Rendering a counter in decimal then parsing back is the identity. -/
theorem parseDec_decimalBytes (n : Nat) : parseDec (decimalBytes n) = n := by
  unfold decimalBytes
  by_cases h : n = 0
  · subst h; rfl
  · rw [if_neg h]; exact parseDec_decRevF n n le_rfl

/-- The decimal rendering consists of ASCII digits. -/
theorem decimalBytes_digits (n : Nat) : ∀ d ∈ decimalBytes n, 48 ≤ d ∧ d ≤ 57 := by
  unfold decimalBytes
  by_cases h : n = 0
  · subst h; intro d hd; simp at hd; omega
  · rw [if_neg h]
    intro d hd
    exact decRevF_digits n n d (List.mem_reverse.mp hd)

/-! ## Bit-list and base32 round trips -/

theorem natToBits_length : ∀ k n : Nat, (natToBits k n).length = k := by
  intro k
  induction k with
  | zero => intro n; rfl
  | succ k ih => intro n; simp [natToBits, ih]

theorem bitsToNat_append_bit (l : List Bool) (b : Bool) :
    bitsToNat (l ++ [b]) = 2 * bitsToNat l + (if b then 1 else 0) := by
  simp [bitsToNat, List.foldl_append]

/-- Reading back the `k` low bits of `n` gives `n mod 2^k`. -/
theorem bitsToNat_natToBits : ∀ k n : Nat, bitsToNat (natToBits k n) = n % 2 ^ k := by
  intro k
  induction k with
  | zero => intro n; simp [natToBits, bitsToNat, Nat.mod_one]
  | succ k ih =>
    intro n
    rw [show natToBits (k + 1) n = natToBits k (n / 2) ++ [n % 2 == 1] from rfl]
    rw [bitsToNat_append_bit, ih]
    rw [pow_succ, Nat.mul_comm (2 ^ k) 2, Nat.mod_mul]
    rcases Nat.mod_two_eq_zero_or_one n with h2 | h2 <;> simp [h2]
    omega

/-- Bit lists are faithfully recovered from their value. -/
theorem natToBits_bitsToNat : ∀ l : List Bool, natToBits l.length (bitsToNat l) = l := by
  intro l
  induction l using List.reverseRecOn with
  | nil => rfl
  | append_singleton t b ih =>
    rw [bitsToNat_append_bit]
    rw [show (t ++ [b]).length = t.length + 1 by simp]
    rw [show natToBits (t.length + 1) (2 * bitsToNat t + if b then 1 else 0)
        = natToBits t.length ((2 * bitsToNat t + if b then 1 else 0) / 2)
          ++ [(2 * bitsToNat t + if b then 1 else 0) % 2 == 1] from rfl]
    have hdiv : (2 * bitsToNat t + if b then 1 else 0) / 2 = bitsToNat t := by
      cases b <;> simp <;> omega
    have hmod : ((2 * bitsToNat t + if b then 1 else 0) % 2 == 1) = b := by
      cases b <;> simp <;> omega
    rw [hdiv, hmod, ih]

theorem bitsToNat_lt : ∀ l : List Bool, bitsToNat l < 2 ^ l.length := by
  intro l
  induction l using List.reverseRecOn with
  | nil => simp [bitsToNat]
  | append_singleton t b ih =>
    rw [bitsToNat_append_bit]
    simp only [List.length_append, List.length_singleton]
    rw [pow_succ]
    cases b <;> simp <;> omega

/-- Fuel at least the length computes `chunks5`. -/
theorem chunks5F_fuel (f : Nat) :
    ∀ l : List Bool, l.length ≤ f → chunks5F f l = chunks5 l := by
  induction f using Nat.strong_induction_on with
  | _ f IH =>
    intro l hl
    cases l with
    | nil => cases f <;> rfl
    | cons a l =>
      cases f with
      | zero => simp at hl
      | succ f =>
        have hlen : l.length ≤ f := by simpa using hl
        have hdrop : (l.drop 4).length ≤ l.length := by simp
        show chunks5F (f + 1) (a :: l) = chunks5F (l.length + 1) (a :: l)
        simp only [chunks5F]
        rw [IH f (by omega) _ (by omega), IH l.length (by omega) _ (by omega)]

theorem chunks5_cons (a : Bool) (l : List Bool) :
    chunks5 (a :: l) = (a :: l.take 4) :: chunks5 (l.drop 4) := by
  show chunks5F (l.length + 1) (a :: l) = _
  simp only [chunks5F]
  rw [chunks5F_fuel l.length _ (by simp)]

/-- Fuel at least the length computes `chunks8`. -/
theorem chunks8F_fuel (f : Nat) :
    ∀ l : List Bool, l.length ≤ f → chunks8F f l = chunks8 l := by
  induction f using Nat.strong_induction_on with
  | _ f IH =>
    intro l hl
    cases l with
    | nil => cases f <;> rfl
    | cons a l =>
      cases f with
      | zero => simp at hl
      | succ f =>
        have hlen : l.length ≤ f := by simpa using hl
        have hdrop : (l.drop 7).length ≤ l.length := by simp
        show chunks8F (f + 1) (a :: l) = chunks8F (l.length + 1) (a :: l)
        simp only [chunks8F]
        rw [IH f (by omega) _ (by omega), IH l.length (by omega) _ (by omega)]

theorem chunks8_cons (a : Bool) (l : List Bool) :
    chunks8 (a :: l) = (a :: l.take 7) :: chunks8 (l.drop 7) := by
  show chunks8F (l.length + 1) (a :: l) = _
  simp only [chunks8F]
  rw [chunks8F_fuel l.length _ (by simp)]

/-- A five-bit block is peeled off in one chunk. -/
theorem chunks5_block (c rest : List Bool) (hc : c.length = 5) :
    chunks5 (c ++ rest) = c :: chunks5 rest := by
  match c, hc with
  | [b0, b1, b2, b3, b4], _ =>
    rw [show ([b0, b1, b2, b3, b4] : List Bool) ++ rest
        = b0 :: b1 :: b2 :: b3 :: b4 :: rest by simp]
    rw [chunks5_cons]
    simp

/-- An eight-bit block is peeled off in one chunk. -/
theorem chunks8_block (c rest : List Bool) (hc : c.length = 8) :
    chunks8 (c ++ rest) = c :: chunks8 rest := by
  match c, hc with
  | [b0, b1, b2, b3, b4, b5, b6, b7], _ =>
    rw [show ([b0, b1, b2, b3, b4, b5, b6, b7] : List Bool) ++ rest
        = b0 :: b1 :: b2 :: b3 :: b4 :: b5 :: b6 :: b7 :: rest by simp]
    rw [chunks8_cons]
    simp

/-- Chunking a flat list of five-bit blocks recovers the blocks. -/
theorem chunks5_flatten (cs : List (List Bool)) (h : ∀ c ∈ cs, c.length = 5) :
    chunks5 cs.flatten = cs := by
  induction cs with
  | nil => rfl
  | cons c rest ih =>
    rw [List.flatten_cons, chunks5_block c _ (h c (by simp))]
    rw [ih (fun x hx => h x (by simp [hx]))]

/-- Chunking eight-bit blocks followed by a short tail recovers the blocks
and the tail. -/
theorem chunks8_flatten_pad (cs : List (List Bool)) (h : ∀ c ∈ cs, c.length = 8)
    (pad : List Bool) (hp : pad.length < 8) :
    chunks8 (cs.flatten ++ pad) = cs ++ (if pad = [] then [] else [pad]) := by
  induction cs with
  | nil =>
    cases pad with
    | nil => rfl
    | cons p t =>
      have ht : t.length ≤ 7 := by simp at hp; omega
      rw [List.flatten_nil, List.nil_append, chunks8_cons]
      rw [List.take_of_length_le ht, List.drop_eq_nil_of_le (by omega)]
      simp [show chunks8 ([] : List Bool) = [] from rfl]
  | cons c rest ih =>
    rw [List.flatten_cons, List.append_assoc, chunks8_block c _ (h c (by simp))]
    rw [ih (fun x hx => h x (by simp [hx]))]
    simp

/-- All chunks of a list whose length is divisible by five have length
exactly five. -/
theorem chunks5_all_len : ∀ (n : Nat) (l : List Bool), l.length = n → 5 ∣ n →
    ∀ c ∈ chunks5 l, c.length = 5 := by
  intro n
  induction n using Nat.strong_induction_on with
  | _ n IH =>
    intro l hlen hdvd c hc
    cases l with
    | nil => simp [show chunks5 ([] : List Bool) = [] from rfl] at hc
    | cons a l =>
      have hlen1 : l.length + 1 = n := by simpa using hlen
      rw [chunks5_cons] at hc
      rcases hdvd with ⟨k, rfl⟩
      have hk1 : 1 ≤ k := by omega
      have hlen4 : 4 ≤ l.length := by omega
      rcases List.mem_cons.mp hc with rfl | hc2
      · simp [List.length_take]; omega
      · refine IH (5 * (k - 1)) (by omega) (l.drop 4) (by simp; omega)
          ⟨k - 1, rfl⟩ c hc2

/-- All chunks of `chunks5` have length at most five. -/
theorem chunks5_all_le : ∀ (n : Nat) (l : List Bool), l.length = n →
    ∀ c ∈ chunks5 l, c.length ≤ 5 := by
  intro n
  induction n using Nat.strong_induction_on with
  | _ n IH =>
    intro l hlen c hc
    cases l with
    | nil => simp [show chunks5 ([] : List Bool) = [] from rfl] at hc
    | cons a l =>
      have hlen1 : l.length + 1 = n := by simpa using hlen
      rw [chunks5_cons] at hc
      rcases List.mem_cons.mp hc with rfl | hc2
      · simp only [List.length_cons, List.length_take]; omega
      · exact IH ((l.drop 4).length) (by simp; omega) (l.drop 4) rfl c hc2

/-- Flattening the chunks recovers the original list. -/
theorem flatten_chunks5 : ∀ (n : Nat) (l : List Bool), l.length = n →
    (chunks5 l).flatten = l := by
  intro n
  induction n using Nat.strong_induction_on with
  | _ n IH =>
    intro l hlen
    cases l with
    | nil => rfl
    | cons a l =>
      have hlen1 : l.length + 1 = n := by simpa using hlen
      rw [chunks5_cons, List.flatten_cons]
      rw [IH ((l.drop 4).length) (by simp; omega) (l.drop 4) rfl]
      simp [List.take_append_drop]

set_option maxRecDepth 8192 in
/-- Indexing the RFC 4648 alphabet is inverted by `idx32`. -/
theorem idx32_getD : ∀ v : Nat, v < 32 → idx32 (alphabet32.getD v 0) = v := by
  decide

set_option maxRecDepth 8192 in
/-- Every RFC 4648 alphabet byte is alphanumeric (in particular no `=`). -/
theorem alphabet32_facts : ∀ c ∈ alphabet32, isAsciiAlnum c = true ∧ c < 256 := by
  decide

theorem filterMap_id_of_mem {α : Type} (l : List α) (f : α → Option α)
    (h : ∀ a ∈ l, f a = some a) : l.filterMap f = l := by
  induction l with
  | nil => rfl
  | cons x t ih =>
    rw [List.filterMap_cons, h x (by simp), ih (fun a ha => h a (by simp [ha]))]

theorem bits_len (s : List Nat) : ((s.map (natToBits 8)).flatten).length = 8 * s.length := by
  induction s with
  | nil => rfl
  | cons b t ih =>
    simp only [List.map_cons, List.flatten_cons, List.length_append, natToBits_length, ih,
      List.length_cons]
    omega

/-- Unpadded RFC 4648 base32 decoding inverts `base32encode` on byte
strings. -/
theorem base32decode_encode (s : List Nat) (h : ∀ b ∈ s, b < 256) :
    base32decode (base32encode s) = s := by
  show (chunks8 ((((chunks5 ((s.map (natToBits 8)).flatten
      ++ List.replicate ((5 - ((s.map (natToBits 8)).flatten).length % 5) % 5) false)).map
        (fun c => alphabet32.getD (bitsToNat c) 0)).map
          (fun c => natToBits 5 (idx32 c))).flatten)).filterMap
            (fun c => if c.length = 8 then some (bitsToNat c) else none) = s
  set bits := (s.map (natToBits 8)).flatten with hbits
  set pad := List.replicate ((5 - bits.length % 5) % 5) false with hpad
  have hdvd : 5 ∣ (bits ++ pad).length := by
    rw [List.length_append, hpad, List.length_replicate]
    omega
  have hall := chunks5_all_len ((bits ++ pad).length) (bits ++ pad) rfl hdvd
  have hmapid : (chunks5 (bits ++ pad)).map
      ((fun c => natToBits 5 (idx32 c)) ∘ (fun c => alphabet32.getD (bitsToNat c) 0))
      = chunks5 (bits ++ pad) := by
    refine map_id_of_mem _ _ (fun c hc => ?_)
    have h5 : c.length = 5 := hall c hc
    have hlt : bitsToNat c < 32 := by
      have hb := bitsToNat_lt c
      rw [h5] at hb
      norm_num at hb
      exact hb
    simp only [Function.comp_apply]
    rw [idx32_getD (bitsToNat c) hlt, ← h5, natToBits_bitsToNat]
  rw [List.map_map, hmapid, flatten_chunks5 ((bits ++ pad).length) _ rfl]
  rw [hbits, chunks8_flatten_pad (s.map (natToBits 8))
    (fun c hc => by rcases List.mem_map.mp hc with ⟨b, hb, rfl⟩; exact natToBits_length 8 b)
    pad (by rw [hpad, List.length_replicate]; omega)]
  rw [List.filterMap_append, List.filterMap_map]
  rw [filterMap_id_of_mem s _ (fun b hb => by
    simp only [Function.comp_apply, natToBits_length, bitsToNat_natToBits]
    rw [Nat.mod_eq_of_lt (lt_of_lt_of_le (h b hb) (by norm_num))]
    simp)]
  by_cases hpe : pad = []
  · simp [hpe]
  · rw [if_neg hpe]
    have hp8 : pad.length ≠ 8 := by rw [hpad, List.length_replicate]; omega
    cases hpc : pad with
    | nil => cases hpe hpc
    | cons p t =>
      rw [← hpc]
      simp [List.filterMap_cons, hp8]

/-- Every byte of a base32 encoding is an RFC 4648 alphabet byte. -/
theorem mem_base32encode_alphabet (s : List Nat) (c : Nat) (hc : c ∈ base32encode s) :
    c ∈ alphabet32 := by
  have hc2 : c ∈ (chunks5 ((s.map (natToBits 8)).flatten
      ++ List.replicate ((5 - ((s.map (natToBits 8)).flatten).length % 5) % 5) false)).map
        (fun c => alphabet32.getD (bitsToNat c) 0) := hc
  rcases List.mem_map.mp hc2 with ⟨ch, hch, rfl⟩
  have hle : ch.length ≤ 5 := chunks5_all_le _ _ rfl ch hch
  have hlt : bitsToNat ch < 32 := by
    have hb := bitsToNat_lt ch
    have hpow : (2 : Nat) ^ ch.length ≤ 2 ^ 5 := Nat.pow_le_pow_right (by omega) hle
    norm_num at hpow
    omega
  have : ∀ v : Nat, v < 32 → alphabet32.getD v 0 ∈ alphabet32 := by decide
  exact this _ hlt

set_option maxRecDepth 4096 in
/-- All pairwise comparisons of the five query keys. -/
theorem qkey_facts :
    ((ascii "secret" == ascii "secret") = true) ∧
    ((ascii "secret" == ascii "counter") = false) ∧
    ((ascii "secret" == ascii "issuer") = false) ∧
    ((ascii "secret" == ascii "algorithm") = false) ∧
    ((ascii "secret" == ascii "digits") = false) ∧
    ((ascii "counter" == ascii "secret") = false) ∧
    ((ascii "counter" == ascii "counter") = true) ∧
    ((ascii "counter" == ascii "issuer") = false) ∧
    ((ascii "counter" == ascii "algorithm") = false) ∧
    ((ascii "counter" == ascii "digits") = false) ∧
    ((ascii "issuer" == ascii "secret") = false) ∧
    ((ascii "issuer" == ascii "counter") = false) ∧
    ((ascii "issuer" == ascii "issuer") = true) ∧
    ((ascii "issuer" == ascii "algorithm") = false) ∧
    ((ascii "issuer" == ascii "digits") = false) ∧
    ((ascii "algorithm" == ascii "secret") = false) ∧
    ((ascii "algorithm" == ascii "counter") = false) ∧
    ((ascii "algorithm" == ascii "issuer") = false) ∧
    ((ascii "algorithm" == ascii "algorithm") = true) ∧
    ((ascii "algorithm" == ascii "digits") = false) ∧
    ((ascii "digits" == ascii "secret") = false) ∧
    ((ascii "digits" == ascii "counter") = false) ∧
    ((ascii "digits" == ascii "issuer") = false) ∧
    ((ascii "digits" == ascii "algorithm") = false) ∧
    ((ascii "digits" == ascii "digits") = true) := by
  decide

/-- The query pairs always start with the secret pair. -/
theorem lookupQ_secret (p : OtpParameters) :
    lookupQ (ascii "secret") (qpairs p) = some (base32encode p.secret) := by
  unfold qpairs lookupQ
  by_cases h1 : typeOf p = OtpType.hotp <;> by_cases h2 : p.issuer = [] <;>
    cases h3 : algLabel p <;> cases h4 : digLabel p <;>
      simp [h1, h2, List.find?, qkey_facts]

/-- The `counter` key is present exactly for hotp records. -/
theorem lookupQ_counter (p : OtpParameters) :
    lookupQ (ascii "counter") (qpairs p) =
      (if typeOf p = OtpType.hotp then some (decimalBytes p.counter) else none) := by
  unfold qpairs lookupQ
  by_cases h1 : typeOf p = OtpType.hotp <;> by_cases h2 : p.issuer = [] <;>
    cases h3 : algLabel p <;> cases h4 : digLabel p <;>
      simp [h1, h2, List.find?, qkey_facts]

/-- The `issuer` key is present exactly when the issuer is non-empty. -/
theorem lookupQ_issuer (p : OtpParameters) :
    lookupQ (ascii "issuer") (qpairs p) =
      (if p.issuer = [] then none else some p.issuer) := by
  unfold qpairs lookupQ
  by_cases h1 : typeOf p = OtpType.hotp <;> by_cases h2 : p.issuer = [] <;>
    cases h3 : algLabel p <;> cases h4 : digLabel p <;>
      simp [h1, h2, List.find?, qkey_facts]

/-- The `algorithm` key carries exactly the algorithm label. -/
theorem lookupQ_algorithm (p : OtpParameters) :
    lookupQ (ascii "algorithm") (qpairs p) = algLabel p := by
  unfold qpairs lookupQ
  by_cases h1 : typeOf p = OtpType.hotp <;> by_cases h2 : p.issuer = [] <;>
    cases h3 : algLabel p <;> cases h4 : digLabel p <;>
      simp [h1, h2, h3, h4, List.find?, qkey_facts]

/-- The `digits` key carries exactly the digit label. -/
theorem lookupQ_digits (p : OtpParameters) :
    lookupQ (ascii "digits") (qpairs p) = digLabel p := by
  unfold qpairs lookupQ
  by_cases h1 : typeOf p = OtpType.hotp <;> by_cases h2 : p.issuer = [] <;>
    cases h3 : algLabel p <;> cases h4 : digLabel p <;>
      simp [h1, h2, h3, h4, List.find?, qkey_facts]

/-- The key list of the query pairs, in append order. -/
theorem qpairs_keys (p : OtpParameters) :
    (qpairs p).map Prod.fst =
      ascii "secret" ::
        ((if typeOf p = OtpType.hotp then [ascii "counter"] else [])
          ++ (if p.issuer = [] then [] else [ascii "issuer"])
          ++ (match algLabel p with | some _ => [ascii "algorithm"] | none => [])
          ++ (match digLabel p with | some _ => [ascii "digits"] | none => [])) := by
  unfold qpairs
  by_cases h1 : typeOf p = OtpType.hotp <;> by_cases h2 : p.issuer = [] <;>
    cases h3 : algLabel p <;> cases h4 : digLabel p <;>
      simp [h1, h2]

set_option maxHeartbeats 2000000 in
/-- Every byte of every query key and value is a byte value. -/
theorem qpairs_bytes (p : OtpParameters) (hiss : ∀ b ∈ p.issuer, b < 256) :
    ∀ kv ∈ qpairs p, (∀ b ∈ kv.1, b < 256) ∧ (∀ b ∈ kv.2, b < 256) := by
  have hsec : ∀ b ∈ base32encode p.secret, b < 256 :=
    fun b hb => (alphabet32_facts b (mem_base32encode_alphabet _ _ hb)).2
  have hcnt : ∀ b ∈ decimalBytes p.counter, b < 256 := by
    intro b hb
    have := decimalBytes_digits _ b hb
    omega
  have hk1 : ∀ b ∈ ascii "secret", b < 256 := by decide
  have hk2 : ∀ b ∈ ascii "counter", b < 256 := by decide
  have hk3 : ∀ b ∈ ascii "issuer", b < 256 := by decide
  have hk4 : ∀ b ∈ ascii "algorithm", b < 256 := by decide
  have hk5 : ∀ b ∈ ascii "digits", b < 256 := by decide
  have hv1 : ∀ b ∈ ascii "SHA1", b < 256 := by decide
  have hv2 : ∀ b ∈ ascii "SHA256", b < 256 := by decide
  have hv3 : ∀ b ∈ ascii "SHA512", b < 256 := by decide
  have hv4 : ∀ b ∈ ascii "MD5", b < 256 := by decide
  have hv6 : ∀ b ∈ ascii "6", b < 256 := by decide
  have hv8 : ∀ b ∈ ascii "8", b < 256 := by decide
  by_cases h1 : typeOf p = OtpType.hotp <;> by_cases h2 : p.issuer = [] <;>
    cases halg : algOf p <;> cases hdig : digitsOf p <;>
      simp [qpairs, algLabel, digLabel, h1, h2, halg, hdig, List.forall_mem_cons,
        hsec, hcnt, hiss, hk1, hk2, hk3, hk4, hk5, hv1, hv2, hv3, hv4, hv6, hv8] <;>
        (repeat' constructor) <;> assumption

/-- Unpacking a successful `migration_to_output`: the type is specified and
every output field has its canonical value. -/
theorem migration_to_output_ok (p : OtpParameters) (o : Output)
    (h : migration_to_output p = Except.ok o) :
    typeOf p ≠ OtpType.unspecified ∧
    o.secret = base32encode p.secret ∧
    o.issuer = p.issuer ∧ o.name = p.name ∧
    o.algorithm = algLabel p ∧ o.digit_count = digLabel p ∧
    o.kind = upperBytes (if typeOf p = OtpType.hotp then ascii "hotp" else ascii "totp") ∧
    o.url = ascii "otpauth://"
      ++ (if typeOf p = OtpType.hotp then ascii "hotp" else ascii "totp")
      ++ 47 :: (if p.issuer = [] then pctEncode p.name
                else pctEncode (p.issuer ++ 58 :: p.name))
      ++ 63 :: serializePairs (qpairs p) := by
  unfold migration_to_output at h
  cases hty : typeOf p with
  | unspecified => rw [hty] at h; simp at h
  | hotp =>
    rw [hty] at h
    simp only [Except.ok.injEq] at h
    subst h
    simp [hty]
  | totp =>
    rw [hty] at h
    simp only [Except.ok.injEq] at h
    subst h
    simp [hty]

/-- Parsing the canonical URI of a successful conversion yields the kind,
the encoded label and exactly the appended query pairs. -/
theorem parse_canonical_url (p : OtpParameters) (o : Output)
    (hn : ∀ b ∈ p.name, b < 256) (hiss : ∀ b ∈ p.issuer, b < 256)
    (h : migration_to_output p = Except.ok o) :
    parseOtpauth o.url =
      some ((if typeOf p = OtpType.hotp then ascii "hotp" else ascii "totp"),
        (if p.issuer = [] then pctEncode p.name
         else pctEncode (p.issuer ++ 58 :: p.name)),
        qpairs p) := by
  rcases migration_to_output_ok p o h with ⟨-, -, -, -, -, -, -, hurl⟩
  rw [hurl]
  have hk47 : (47 : Nat) ∉ (if typeOf p = OtpType.hotp then ascii "hotp" else ascii "totp") := by
    by_cases h1 : typeOf p = OtpType.hotp
    · rw [if_pos h1]; decide
    · rw [if_neg h1]; decide
  have hl63 : (63 : Nat) ∉ (if p.issuer = [] then pctEncode p.name
      else pctEncode (p.issuer ++ 58 :: p.name)) := by
    by_cases h2 : p.issuer = []
    · rw [if_pos h2]
      exact not_mem_pctEncode 63 (fun b hb => (pctEncodeByte_no_delim b hb).2) p.name hn
    · rw [if_neg h2]
      refine not_mem_pctEncode 63 (fun b hb => (pctEncodeByte_no_delim b hb).2) _ ?_
      intro b hb
      rcases List.mem_append.mp hb with hb1 | hb2
      · exact hiss b hb1
      · rcases List.mem_cons.mp hb2 with rfl | hb3
        · omega
        · exact hn b hb3
  rw [parseOtpauth_build _ _ _ hk47 hl63]
  rw [parseQuery_serializePairs (qpairs p) ?hne (qpairs_bytes p hiss)]
  case hne =>
    have hk := qpairs_keys p
    intro hnil
    rw [hnil] at hk
    simp at hk

/-! ## Batch record processing -/

/-- The record loop processes concatenated batches independently. -/
theorem loadedFold_append (a b : List OtpParameters) :
    loadedFold (a ++ b)
      = ((loadedFold a).1 ++ (loadedFold b).1, (loadedFold a).2 ++ (loadedFold b).2) := by
  induction a with
  | nil => simp [loadedFold]
  | cons p rest ih =>
    simp only [List.cons_append, loadedFold]
    cases hmp : migration_to_output p <;> simp [ih]

/-- The algorithm label always parses back to the algorithm enum. -/
theorem parseAlgParam_algLabel (p : OtpParameters) :
    parseAlgParam (algLabel p) = some (algOf p) := by
  cases halg : algOf p <;> simp [algLabel, halg, parseAlgParam] <;> decide

/-- The digit label always parses back to the digit-count enum. -/
theorem parseDigParam_digLabel (p : OtpParameters) :
    parseDigParam (digLabel p) = some (digitsOf p) := by
  cases hdig : digitsOf p <;> simp [digLabel, hdig, parseDigParam] <;> decide

/-! ## Claims -/

/-- C4: a record with `otpType = UNSPECIFIED` fails with the unknown-type
error, is dropped, and the remaining records of the batch are processed
unchanged: the batch outputs are those of the surrounding records and the
error list gains exactly this record's message. -/
theorem claim_c4_unknown_type (p : OtpParameters) (l1 l2 : List OtpParameters)
    (h : typeOf p = OtpType.unspecified) :
    migration_to_output p = Except.error (ascii "unknown otp type") ∧
    (loadedFold (l1 ++ p :: l2)).1 = (loadedFold l1).1 ++ (loadedFold l2).1 ∧
    (loadedFold (l1 ++ p :: l2)).2
      = (loadedFold l1).2 ++ ascii "unknown otp type" :: (loadedFold l2).2 := by
  have herr : migration_to_output p = Except.error (ascii "unknown otp type") := by
    unfold migration_to_output
    rw [h]
  refine ⟨herr, ?_, ?_⟩
  · rw [loadedFold_append]
    simp [loadedFold, herr]
  · rw [loadedFold_append]
    simp [loadedFold, herr]

/-- C4 witness at a concrete batch. -/
theorem claim_c4_witness :
    migration_to_output badTypeRec = Except.error (ascii "unknown otp type") ∧
    (loadedFold ([sampleTotpRec] ++ badTypeRec :: [sampleTotpRec])).1
      = (loadedFold [sampleTotpRec]).1 ++ (loadedFold [sampleTotpRec]).1 ∧
    (loadedFold ([sampleTotpRec] ++ badTypeRec :: [sampleTotpRec])).2
      = (loadedFold [sampleTotpRec]).2
        ++ ascii "unknown otp type" :: (loadedFold [sampleTotpRec]).2 :=
  claim_c4_unknown_type badTypeRec [sampleTotpRec] [sampleTotpRec] (by decide)

/-- C5: after a successful batch decode the per-record errors are
aggregated: no failures clear the error, one failure produces the singular
message, and two or more failures produce the plural message with the count
and the comma-joined error list. -/
theorem claim_c5_aggregation (app : App) (fn : String) (m : MigrationPayload)
    (hfn : fn ∈ app.readers) :
    ((loadedFold m.otp_parameters).2 = [] →
      (update_loaded app fn (Except.ok (some m))).error = none) ∧
    (∀ e, (loadedFold m.otp_parameters).2 = [e] →
      (update_loaded app fn (Except.ok (some m))).error
        = some (ascii "One account could not be read: " ++ e)) ∧
    (∀ e1 e2 es, (loadedFold m.otp_parameters).2 = e1 :: e2 :: es →
      (update_loaded app fn (Except.ok (some m))).error
        = some (decimalBytes (e1 :: e2 :: es).length
            ++ ascii " accounts could not be read: "
            ++ joinSep (ascii ", ") (e1 :: e2 :: es))) := by
  have hupdate : (update_loaded app fn (Except.ok (some m))).error
      = aggregateErrors (loadedFold m.otp_parameters).2 := by
    unfold update_loaded
    rw [if_pos hfn]
  refine ⟨?_, ?_, ?_⟩
  · intro he; rw [hupdate, he]; rfl
  · intro e he; rw [hupdate, he]; rfl
  · intro e1 e2 es he; rw [hupdate, he]; rfl

/-- C5 witness: zero, one and two failing records at concrete batches. -/
theorem claim_c5_witness :
    (update_loaded appWitness "a" (Except.ok (some goodBatch))).error = none ∧
    (update_loaded appWitness "a" (Except.ok (some oneBadBatch))).error
      = some (ascii "One account could not be read: unknown otp type") ∧
    (update_loaded appWitness "a" (Except.ok (some twoBadBatch))).error
      = some (ascii "2 accounts could not be read: unknown otp type, unknown otp type") := by
  refine ⟨?_, ?_, ?_⟩
  · exact (claim_c5_aggregation appWitness "a" goodBatch (by decide)).1 (by decide)
  · exact (claim_c5_aggregation appWitness "a" oneBadBatch (by decide)).2.1
      (ascii "unknown otp type") (by decide)
  · exact ((claim_c5_aggregation appWitness "a" twoBadBatch (by decide)).2.2
      (ascii "unknown otp type") (ascii "unknown otp type") [] (by decide)).trans (by decide)

/-- C10: a file whose decode ends in no payload or in an error wipes the
whole output list (previously accumulated outputs included) and sets the
corresponding message, while a successful decode appends to the existing
outputs. -/
theorem claim_c10_reset (app : App) (fn : String) (hfn : fn ∈ app.readers) :
    (∀ e, (update_loaded app fn (Except.error e)).output = [] ∧
      (update_loaded app fn (Except.error e)).error
        = some (ascii "Unknown error: " ++ e)) ∧
    ((update_loaded app fn (Except.ok none)).output = [] ∧
      (update_loaded app fn (Except.ok none)).error = some noQrMessage) ∧
    (∀ m, (update_loaded app fn (Except.ok (some m))).output
      = app.output ++ (loadedFold m.otp_parameters).1) := by
  refine ⟨fun e => ⟨?_, ?_⟩, ⟨?_, ?_⟩, fun m => ?_⟩ <;>
    (unfold update_loaded; rw [if_pos hfn])

/-- C10 witness: a previously accumulated output is discarded on failure
and kept on success. -/
theorem claim_c10_witness :
    (update_loaded appWitness "a" (Except.error (ascii "boom"))).output = [] ∧
    (update_loaded appWitness "a" (Except.ok none)).output = [] ∧
    (update_loaded appWitness "a" (Except.ok none)).error = some noQrMessage ∧
    (update_loaded appWitness "a" (Except.ok (some goodBatch))).output
      = appWitness.output ++ (loadedFold goodBatch.otp_parameters).1 ∧
    appWitness.output ≠ [] := by
  refine ⟨?_, ?_, ?_, ?_, by decide⟩
  · exact ((claim_c10_reset appWitness "a" (by decide)).1 (ascii "boom")).1
  · exact (claim_c10_reset appWitness "a" (by decide)).2.1.1
  · exact (claim_c10_reset appWitness "a" (by decide)).2.1.2
  · exact (claim_c10_reset appWitness "a" (by decide)).2.2 goodBatch

/-- C8: with thresholding enabled every sample strictly above 128 becomes
255 and every other sample (128 included) becomes 0; with thresholding
disabled the pipeline hands the samples to grid detection unchanged. -/
theorem claim_c8_threshold (img : List Nat) (i : Nat) (hi : i < img.length) :
    (thresholdImage img).length = img.length ∧
    (thresholdImage img).getD i 0 = (if 128 < img.getD i 0 then 255 else 0) ∧
    (img.getD i 0 = 128 → (thresholdImage img).getD i 0 = 0) ∧
    (∀ gray detect, extract (Except.ok gray) detect false
        = Except.ok (migrationSearch (detect gray))) ∧
    (∀ gray detect, extract (Except.ok gray) detect true
        = Except.ok (migrationSearch (detect (thresholdImage gray)))) := by
  have hlen : (thresholdImage img).length = img.length := by simp [thresholdImage]
  have hget : (thresholdImage img).getD i 0 = (if 128 < img.getD i 0 then 255 else 0) := by
    have h2 : i < (thresholdImage img).length := by omega
    rw [List.getD_eq_getElem _ _ h2, List.getD_eq_getElem _ _ hi]
    simp [thresholdImage]
  refine ⟨hlen, hget, ?_, fun gray detect => rfl, fun gray detect => rfl⟩
  intro h128
  rw [hget, h128]
  simp

/-- C8 witness at a concrete image: 200 stays white, 128 goes to black. -/
theorem claim_c8_witness :
    (thresholdImage [200, 128, 10]).length = 3 ∧
    (thresholdImage [200, 128, 10]).getD 1 0 = 0 ∧
    (thresholdImage [200, 128, 10]).getD 0 0 = 255 := by
  refine ⟨?_, ?_, ?_⟩
  · exact (claim_c8_threshold [200, 128, 10] 0 (by decide)).1
  · exact (claim_c8_threshold [200, 128, 10] 1 (by decide)).2.2.1 (by decide)
  · exact ((claim_c8_threshold [200, 128, 10] 0 (by decide)).2.1).trans (by decide)

/-- C6: the pipeline runs un-thresholded first; an error there propagates
without a retry, an empty result triggers exactly one thresholded retry
whose result is returned as is, and the "no QR code found" value
`Ok(None)` is distinct from every error value. -/
theorem claim_c6_retry (img : Except (List Nat) (List Nat))
    (detect : List Nat → List (Except (List Nat) Url)) :
    migration_from_file img detect
      = (match extract img detect false with
         | Except.ok (some m) => Except.ok (some m)
         | Except.ok none => extract img detect true
         | Except.error e => Except.error e) ∧
    (extract img detect false = Except.ok none →
      migration_from_file img detect = extract img detect true) ∧
    (∀ e : List Nat,
      (Except.ok none : Except (List Nat) (Option MigrationPayload))
        ≠ Except.error e) := by
  refine ⟨?_, ?_, fun e h => Except.noConfusion h⟩
  · unfold migration_from_file
    cases hx : extract img detect false with
    | error e => rfl
    | ok m =>
      cases m with
      | none => simp
      | some mm => simp
  · intro hx
    unfold migration_from_file
    rw [hx]
    simp

/-- C6 witness: an image that fails the plain pass and succeeds after
binarization returns the thresholded result. -/
theorem claim_c6_witness :
    migration_from_file (Except.ok [10]) detectSample
      = extract (Except.ok [10]) detectSample true ∧
    extract (Except.ok [10]) detectSample false = Except.ok none ∧
    migration_from_file (Except.ok [10]) detectSample = Except.ok (some goodPayload) := by
  refine ⟨(claim_c6_retry (Except.ok [10]) detectSample).2.1 (by decide), by decide, by decide⟩

/-- C1 counterexample: a qualifying URL whose base64 payload is not a
parseable migration message is NOT terminal — its decode error is swallowed
by the `flat_map` over `Result`, the next URL is still tried, and the batch
succeeds with the later payload instead of reporting an error. -/
theorem claim_c1_counterexample :
    dataPipeline urlBadPayload = Except.error (ascii "invalid wire type") ∧
    migrationSearch [Except.ok urlBadPayload, Except.ok urlGoodPayload]
      = some goodPayload ∧
    migration_from_file (Except.ok [])
        (fun _ => [Except.ok urlBadPayload, Except.ok urlGoodPayload])
      = Except.ok (some goodPayload) := by
  refine ⟨by decide, by decide, by decide⟩

/-- C1 (amended): a detected URL whose payload pipeline (data parameter,
base64 decode, or migration-message parse) fails is silently skipped and
the search continues with the remaining URLs; no error is surfaced. -/
theorem claim_c1_malformed_skipped (u : Url) (rest : List (Except (List Nat) Url))
    (e : List Nat) (hfail : dataPipeline u = Except.error e) :
    migrationSearch (Except.ok u :: rest) = migrationSearch rest := by
  unfold migrationSearch
  rw [show (Except.ok u :: rest).filterMap excToOption
      = u :: rest.filterMap excToOption by simp [List.filterMap_cons, excToOption]]
  by_cases hs : (u.scheme == ascii "otpauth-migration") = true
  · have h1 : (u :: rest.filterMap excToOption).filter
        (fun x => x.scheme == ascii "otpauth-migration")
        = u :: (rest.filterMap excToOption).filter
            (fun x => x.scheme == ascii "otpauth-migration") := by
      simp [List.filter_cons, hs]
    rw [h1]
    have h2 : (u :: (rest.filterMap excToOption).filter
        (fun x => x.scheme == ascii "otpauth-migration")).filterMap
          (fun x => excToOption (dataPipeline x))
        = ((rest.filterMap excToOption).filter
            (fun x => x.scheme == ascii "otpauth-migration")).filterMap
              (fun x => excToOption (dataPipeline x)) := by
      simp [List.filterMap_cons, hfail, excToOption]
    rw [h2]
  · have hs2 : (u.scheme == ascii "otpauth-migration") = false := by
      simpa using hs
    have h1 : (u :: rest.filterMap excToOption).filter
        (fun x => x.scheme == ascii "otpauth-migration")
        = (rest.filterMap excToOption).filter
            (fun x => x.scheme == ascii "otpauth-migration") := by
      simp [List.filter_cons, hs2]
    rw [h1]

/-- C1 witness: skipping a malformed payload at a concrete URL list. -/
theorem claim_c1_witness :
    migrationSearch [Except.ok urlBadPayload, Except.ok urlGoodPayload]
      = migrationSearch [Except.ok urlGoodPayload] :=
  claim_c1_malformed_skipped urlBadPayload [Except.ok urlGoodPayload]
    (ascii "invalid wire type") (by decide)

/-- C2 counterexample: the secret bytes `DE AD BE EF` re-encode to
`32W353Y`, not to the spec's claimed `3158Q7Y` (whose characters `1` and
`8` are not even in the RFC 4648 alphabet). -/
theorem claim_c2_counterexample :
    (migration_to_output sampleTotpRec).map Output.secret
      = Except.ok (ascii "32W353Y") ∧
    ¬ (migration_to_output sampleTotpRec).map Output.secret
      = Except.ok (ascii "3158Q7Y") := by
  refine ⟨by decide, by decide⟩

/-- C2 (amended): every converted record carries its secret re-encoded as
unpadded RFC 4648 base32 — every output byte is an alphabet byte and no
`=` padding appears — and the example bytes `DE AD BE EF` encode to
`32W353Y`. -/
theorem claim_c2_base32 (p : OtpParameters) (o : Output)
    (h : migration_to_output p = Except.ok o) :
    o.secret = base32encode p.secret ∧
    (∀ c ∈ o.secret, c ∈ alphabet32) ∧
    (61 : Nat) ∉ o.secret ∧
    base32encode [222, 173, 190, 239] = ascii "32W353Y" := by
  have hsec := (migration_to_output_ok p o h).2.1
  refine ⟨hsec, ?_, ?_, by decide⟩
  · intro c hc
    rw [hsec] at hc
    exact mem_base32encode_alphabet _ _ hc
  · intro hmem
    rw [hsec] at hmem
    have hmem2 := mem_base32encode_alphabet _ _ hmem
    have h61 : (61 : Nat) ∉ alphabet32 := by decide
    exact h61 hmem2

/-- C2 witness at the concrete example record. -/
theorem claim_c2_witness :
    sampleTotpOut.secret = base32encode sampleTotpRec.secret ∧
    (∀ c ∈ sampleTotpOut.secret, c ∈ alphabet32) ∧
    (61 : Nat) ∉ sampleTotpOut.secret ∧
    base32encode [222, 173, 190, 239] = ascii "32W353Y" :=
  claim_c2_base32 sampleTotpRec sampleTotpOut (by rfl)

/-- C3: the canonical URI has the exact shape
`otpauth://{kind}/{label}?{querystring}`, its query keys appear in the
order secret, counter (hotp only), issuer (when non-empty), algorithm
(when specified, with the literal SHA1/SHA256/SHA512/MD5 values) and
digits (when specified, with values 6 or 8), and the kind is `hotp`
exactly for hotp records and `totp` otherwise. -/
theorem claim_c3_uri_shape (p : OtpParameters) (o : Output)
    (hn : ∀ b ∈ p.name, b < 256) (hiss : ∀ b ∈ p.issuer, b < 256)
    (h : migration_to_output p = Except.ok o) :
    ∃ kind label pairs,
      o.url = ascii "otpauth://" ++ kind ++ 47 :: label ++ 63 :: serializePairs pairs ∧
      parseOtpauth o.url = some (kind, label, pairs) ∧
      pairs.map Prod.fst =
        ascii "secret" ::
          ((if typeOf p = OtpType.hotp then [ascii "counter"] else [])
            ++ (if p.issuer = [] then [] else [ascii "issuer"])
            ++ (match algLabel p with | some _ => [ascii "algorithm"] | none => [])
            ++ (match digLabel p with | some _ => [ascii "digits"] | none => [])) ∧
      (kind = ascii "hotp" ∨ kind = ascii "totp") ∧
      (kind = ascii "hotp" ↔ typeOf p = OtpType.hotp) ∧
      lookupQ (ascii "algorithm") pairs =
        (match algOf p with
         | OtpAlgorithm.unspecified => none
         | OtpAlgorithm.sha1 => some (ascii "SHA1")
         | OtpAlgorithm.sha256 => some (ascii "SHA256")
         | OtpAlgorithm.sha512 => some (ascii "SHA512")
         | OtpAlgorithm.md5 => some (ascii "MD5")) ∧
      lookupQ (ascii "digits") pairs =
        (match digitsOf p with
         | OtpDigitCount.unspecified => none
         | OtpDigitCount.six => some (ascii "6")
         | OtpDigitCount.eight => some (ascii "8")) := by
  rcases migration_to_output_ok p o h with ⟨-, -, -, -, -, -, -, hurl⟩
  refine ⟨(if typeOf p = OtpType.hotp then ascii "hotp" else ascii "totp"),
    (if p.issuer = [] then pctEncode p.name else pctEncode (p.issuer ++ 58 :: p.name)),
    qpairs p, hurl, parse_canonical_url p o hn hiss h, qpairs_keys p, ?_, ?_,
    lookupQ_algorithm p, lookupQ_digits p⟩
  · by_cases h1 : typeOf p = OtpType.hotp <;> simp [h1]
  · by_cases h1 : typeOf p = OtpType.hotp <;> simp [h1] <;> decide

/-- C3 witness at a concrete hotp record with issuer, algorithm and
digits. -/
theorem claim_c3_witness :
    ∃ kind label pairs,
      sampleHotpOut.url
        = ascii "otpauth://" ++ kind ++ 47 :: label ++ 63 :: serializePairs pairs ∧
      parseOtpauth sampleHotpOut.url = some (kind, label, pairs) ∧
      pairs.map Prod.fst =
        ascii "secret" ::
          ((if typeOf sampleHotpRec = OtpType.hotp then [ascii "counter"] else [])
            ++ (if sampleHotpRec.issuer = [] then [] else [ascii "issuer"])
            ++ (match algLabel sampleHotpRec with
                | some _ => [ascii "algorithm"] | none => [])
            ++ (match digLabel sampleHotpRec with
                | some _ => [ascii "digits"] | none => [])) ∧
      (kind = ascii "hotp" ∨ kind = ascii "totp") ∧
      (kind = ascii "hotp" ↔ typeOf sampleHotpRec = OtpType.hotp) ∧
      lookupQ (ascii "algorithm") pairs =
        (match algOf sampleHotpRec with
         | OtpAlgorithm.unspecified => none
         | OtpAlgorithm.sha1 => some (ascii "SHA1")
         | OtpAlgorithm.sha256 => some (ascii "SHA256")
         | OtpAlgorithm.sha512 => some (ascii "SHA512")
         | OtpAlgorithm.md5 => some (ascii "MD5")) ∧
      lookupQ (ascii "digits") pairs =
        (match digitsOf sampleHotpRec with
         | OtpDigitCount.unspecified => none
         | OtpDigitCount.six => some (ascii "6")
         | OtpDigitCount.eight => some (ascii "8")) :=
  claim_c3_uri_shape sampleHotpRec sampleHotpOut (by decide) (by decide) (by rfl)

/-- C7: round trip — re-parsing the canonical URI of any successfully
converted record recovers the secret (after base32 decoding), the issuer,
the name (from the percent-decoded label), the algorithm and digit-count
enums, and for hotp records the counter. -/
theorem claim_c7_roundtrip (p : OtpParameters) (o : Output)
    (hs : ∀ b ∈ p.secret, b < 256) (hn : ∀ b ∈ p.name, b < 256)
    (hiss : ∀ b ∈ p.issuer, b < 256)
    (h : migration_to_output p = Except.ok o) :
    ∃ kind label pairs,
      parseOtpauth o.url = some (kind, label, pairs) ∧
      (∃ s, lookupQ (ascii "secret") pairs = some s ∧ base32decode s = p.secret) ∧
      (p.issuer = [] → lookupQ (ascii "issuer") pairs = none ∧
        pctDecode label = p.name) ∧
      (¬ p.issuer = [] → lookupQ (ascii "issuer") pairs = some p.issuer ∧
        pctDecode label = p.issuer ++ 58 :: p.name) ∧
      parseAlgParam (lookupQ (ascii "algorithm") pairs) = some (algOf p) ∧
      parseDigParam (lookupQ (ascii "digits") pairs) = some (digitsOf p) ∧
      (typeOf p = OtpType.hotp →
        (lookupQ (ascii "counter") pairs).map parseDec = some p.counter) ∧
      (typeOf p = OtpType.hotp ↔ kind = ascii "hotp") := by
  refine ⟨(if typeOf p = OtpType.hotp then ascii "hotp" else ascii "totp"),
    (if p.issuer = [] then pctEncode p.name else pctEncode (p.issuer ++ 58 :: p.name)),
    qpairs p, parse_canonical_url p o hn hiss h, ?_, ?_, ?_, ?_, ?_, ?_, ?_⟩
  · exact ⟨base32encode p.secret, lookupQ_secret p, base32decode_encode p.secret hs⟩
  · intro h2
    refine ⟨by rw [lookupQ_issuer, if_pos h2], ?_⟩
    rw [if_pos h2]
    exact pctDecode_pctEncode p.name hn
  · intro h2
    refine ⟨by rw [lookupQ_issuer, if_neg h2], ?_⟩
    rw [if_neg h2]
    refine pctDecode_pctEncode _ ?_
    intro b hb
    rcases List.mem_append.mp hb with hb1 | hb2
    · exact hiss b hb1
    · rcases List.mem_cons.mp hb2 with rfl | hb3
      · omega
      · exact hn b hb3
  · rw [lookupQ_algorithm]
    exact parseAlgParam_algLabel p
  · rw [lookupQ_digits]
    exact parseDigParam_digLabel p
  · intro hty
    rw [lookupQ_counter, if_pos hty]
    simp [parseDec_decimalBytes]
  · by_cases hty : typeOf p = OtpType.hotp <;> simp [hty] <;> decide

/-- C7 witness at a concrete hotp record. -/
theorem claim_c7_witness :
    ∃ kind label pairs,
      parseOtpauth sampleHotpOut.url = some (kind, label, pairs) ∧
      (∃ s, lookupQ (ascii "secret") pairs = some s ∧
        base32decode s = sampleHotpRec.secret) ∧
      (sampleHotpRec.issuer = [] → lookupQ (ascii "issuer") pairs = none ∧
        pctDecode label = sampleHotpRec.name) ∧
      (¬ sampleHotpRec.issuer = [] →
        lookupQ (ascii "issuer") pairs = some sampleHotpRec.issuer ∧
        pctDecode label = sampleHotpRec.issuer ++ 58 :: sampleHotpRec.name) ∧
      parseAlgParam (lookupQ (ascii "algorithm") pairs) = some (algOf sampleHotpRec) ∧
      parseDigParam (lookupQ (ascii "digits") pairs) = some (digitsOf sampleHotpRec) ∧
      (typeOf sampleHotpRec = OtpType.hotp →
        (lookupQ (ascii "counter") pairs).map parseDec = some sampleHotpRec.counter) ∧
      (typeOf sampleHotpRec = OtpType.hotp ↔ kind = ascii "hotp") :=
  claim_c7_roundtrip sampleHotpRec sampleHotpOut (by decide) (by decide) (by decide)
    (by rfl)

/-- C9: the label and the query values use two different encoding
profiles: the label escapes every non-alphanumeric byte as `%XX`, while
query values use the form-urlencoded profile where a space becomes `+` and
`*`, `-`, `.`, `_` stay literal; on a concrete record the issuer
`a b*c-d` appears as `a+b*c-d` in the query but as `a%20b%2Ac%2Dd` inside
the label. -/
theorem claim_c9_profiles :
    (∀ b : Nat, b < 256 → isAsciiAlnum b = false →
      pctEncodeByte b = [37, hexDigitU (b / 16), hexDigitU (b % 16)]) ∧
    (∀ b : Nat, b < 256 → isFormSafe b = true → formEncodeByte b = [b]) ∧
    formEncodeByte 32 = [43] ∧ pctEncodeByte 32 = ascii "%20" ∧
    formEncodeByte 42 = [42] ∧ pctEncodeByte 42 = ascii "%2A" ∧
    formEncodeByte 45 = [45] ∧ pctEncodeByte 45 = ascii "%2D" ∧
    (migration_to_output sampleIssuerRec).map Output.url
      = Except.ok (ascii "otpauth://totp/a%20b%2Ac%2Dd%3An?secret=AEBA&issuer=a+b*c-d") := by
  refine ⟨?_, ?_, by decide, by decide, by decide, by decide, by decide, by decide,
    by decide⟩
  · intro b hb ha
    simp [pctEncodeByte, ha]
  · intro b hb hsafe
    have hfacts := formSafe_byte_facts b hb hsafe
    have h32 : ¬ b = 32 := by
      intro h
      subst h
      exact absurd hsafe (by decide)
    simp [formEncodeByte, h32, hsafe]

/-- C9 witness: the two profiles at the byte 32 (space) and 42 (`*`). -/
theorem claim_c9_witness :
    pctEncodeByte 32 = [37, hexDigitU (32 / 16), hexDigitU (32 % 16)] ∧
    formEncodeByte 42 = [42] :=
  ⟨claim_c9_profiles.1 32 (by decide) (by decide),
   claim_c9_profiles.2.1 42 (by decide) (by decide)⟩
